import Mathlib

/-!
Verification of the device-management layer of the dra-driver-cpu repository:
the three device managers (IndividualCoreManager, SocketGroupedManager,
NUMAGroupedManager), their catalog creation (`CreateSlices`), name→coordinate
indexes, and per-claim CPU-set resolution (`AllocateCPUs`), together with the
driver's claim-preparation entry point.

Conventions of the embedding:
* Go `cpuset.CPUSet` is a `Finset Int`.
* Go maps used as association containers become association lists
  (`List (String × α)`) read through `find?`; iteration-order of Go maps never
  influences results that survive the subsequent sorts, and sorted enumerations
  are produced with `List.insertionSort`.
* Go functions returning `(value, error)` pairs return `α × Option String`.
* `resource.Quantity` values are their integer value (`Int`).
-/

namespace DraCpu

/-! ## CPU descriptors and topology (package cpuinfo, consumed by the sources) -/

/-- One entry of `cpuinfo.CPUTopology.CPUDetails`: per-CPU topology facts.
`siblingCpuID = -1` is the sentinel for "no hyperthread sibling".
`coreType` is the textual form produced by `CoreType.String()`. -/
structure CPUInfo where
  cpuID : Int
  coreID : Int
  socketID : Int
  numaNodeID : Int
  uncoreCacheID : Int
  siblingCpuID : Int
  coreType : String
deriving DecidableEq

/-- The Go zero value `cpuinfo.CPUInfo{}`, produced by a map read at a missing
key (its `coreType` string is left empty). -/
instance : Inhabited CPUInfo := ⟨⟨0, 0, 0, 0, 0, 0, ""⟩⟩

/-- Go `cpuset.CPUSet`: an immutable set of CPU IDs. -/
abbrev CPUSet := Finset Int

/-- `cpuinfo.CPUTopology`: the SMT flag and the per-CPU detail map, here the
map's entries as a list (the entry of CPU ID `i` has `cpuID = i`). -/
structure CPUTopology where
  smtEnabled : Bool
  cpuDetails : List CPUInfo
deriving DecidableEq

/-- Indexing the detail map: `topo.CPUDetails[id]`; a missing key yields the
Go zero value, as Go map reads do. -/
def CPUTopology.lookup (topo : CPUTopology) (id : Int) : CPUInfo :=
  (topo.cpuDetails.find? (fun c => c.cpuID = id)).getD default

/-- Collapse adjacent duplicates of a sorted list (used to enumerate the
distinct coordinate values in ascending order). -/
def dedupAdj : List Int → List Int
  | [] => []
  | [x] => [x]
  | x :: y :: rest => if x = y then dedupAdj (y :: rest) else x :: dedupAdj (y :: rest)

/-- `topo.CPUDetails.Sockets().List()`: the distinct socket IDs, ascending. -/
def CPUTopology.sockets (topo : CPUTopology) : List Int :=
  dedupAdj (List.insertionSort (fun a b => a ≤ b) (topo.cpuDetails.map (fun c => c.socketID)))

/-- `topo.CPUDetails.NUMANodes().List()`: the distinct NUMA node IDs, ascending. -/
def CPUTopology.numaNodes (topo : CPUTopology) : List Int :=
  dedupAdj (List.insertionSort (fun a b => a ≤ b) (topo.cpuDetails.map (fun c => c.numaNodeID)))

/-- `topo.CPUDetails.CPUsInSockets(sid)`: the CPU IDs whose descriptor lives in
socket `sid`. -/
def CPUTopology.cpusInSocket (topo : CPUTopology) (sid : Int) : CPUSet :=
  ((topo.cpuDetails.filter (fun c => c.socketID = sid)).map (fun c => c.cpuID)).toFinset

/-- `topo.CPUDetails.CPUsInNUMANodes(nid)`: the CPU IDs whose descriptor lives
in NUMA node `nid`. -/
def CPUTopology.cpusInNUMANode (topo : CPUTopology) (nid : Int) : CPUSet :=
  ((topo.cpuDetails.filter (fun c => c.numaNodeID = nid)).map (fun c => c.cpuID)).toFinset

/-- Well-formedness of a topology snapshot, as the data model describes it:
CPU IDs are distinct non-negative integers keying the detail map, and the
sibling field is either the `-1` sentinel or the ID of another CPU of the
topology whose own sibling field points back. -/
def CPUTopology.Valid (topo : CPUTopology) : Prop :=
  (topo.cpuDetails.map (fun c => c.cpuID)).Nodup ∧
  (∀ c ∈ topo.cpuDetails, 0 ≤ c.cpuID) ∧
  (∀ c ∈ topo.cpuDetails, c.siblingCpuID = -1 ∨
    (c.siblingCpuID ≠ c.cpuID ∧
      ∃ d ∈ topo.cpuDetails, d.cpuID = c.siblingCpuID ∧ d.siblingCpuID = c.cpuID))

instance (topo : CPUTopology) : Decidable topo.Valid := by
  unfold CPUTopology.Valid; infer_instance

/-! ## Device names (consts.go and the fmt.Sprintf "%s%03d" calls) -/

/-- Decimal digits of a natural number, most significant first (fuel-driven so
that it reduces in the kernel). -/
def natDigitsAux : Nat → Nat → List Char
  | 0, _ => []
  | fuel + 1, n =>
    if n < 10 then [Nat.digitChar n]
    else natDigitsAux fuel (n / 10) ++ [Nat.digitChar (n % 10)]

def natDigits (n : Nat) : List Char := natDigitsAux (n + 1) n

/-- Pad a digit string on the left with zeros up to width `w`. -/
def padLeftZero (w : Nat) (ds : List Char) : List Char :=
  List.replicate (w - ds.length) '0' ++ ds

/-- Go `fmt.Sprintf("%03d", n)`: zero-pad the decimal form to width 3; a
negative value keeps its leading sign, which counts toward the width. -/
def pad3 (n : Int) : List Char :=
  if n < 0 then '-' :: padLeftZero 2 (natDigits (-n).toNat)
  else padLeftZero 3 (natDigits n.toNat)

/-- consts.go `cpuDevicePrefix = "cpudev"`. -/
def cpuDeviceNamePrefixChars : List Char := ['c', 'p', 'u', 'd', 'e', 'v']

/-- consts.go `cpuDeviceSocketGroupedPrefix = "cpudevsocket"`. -/
def cpuDeviceSocketGroupedChars : List Char :=
  ['c', 'p', 'u', 'd', 'e', 'v', 's', 'o', 'c', 'k', 'e', 't']

/-- consts.go `cpuDeviceNUMAGroupedPrefix = "cpudevnuma"`. -/
def cpuDeviceNUMAGroupedChars : List Char :=
  ['c', 'p', 'u', 'd', 'e', 'v', 'n', 'u', 'm', 'a']

/-- `fmt.Sprintf("%s%03d", cpuDevicePrefix, devId)`. -/
def indivDeviceName (devId : Nat) : String := ⟨cpuDeviceNamePrefixChars ++ pad3 devId⟩

/-- `fmt.Sprintf("%s%03d", cpuDeviceSocketGroupedPrefix, socketIDInt)`. -/
def socketDeviceName (sid : Int) : String := ⟨cpuDeviceSocketGroupedChars ++ pad3 sid⟩

/-- `fmt.Sprintf("%s%03d", cpuDeviceNUMAGroupedPrefix, numaIDInt)`. -/
def numaDeviceName (nid : Int) : String := ⟨cpuDeviceNUMAGroupedChars ++ pad3 nid⟩

/-- consts.go `cpuResourceQualifiedName = "dra.cpu/cpu"`. -/
def cpuResourceQualifiedName : String := "dra.cpu/cpu"

/-- consts.go `maxDevicesPerResourceSlice = 128`. -/
def maxDevicesPerResourceSlice : Nat := 128

/-! ## Devices and attributes (attributes.go) -/

/-- `resourceapi.DeviceAttribute`: exactly one typed scalar is set wherever the
sources build one. -/
inductive AttrValue where
  | intValue (i : Int)
  | stringValue (s : String)
  | boolValue (b : Bool)
deriving DecidableEq

/-- `resourceapi.Device` as the sources populate it: name, attribute map,
capacity map (quantity values), and the `AllowMultipleAllocations` flag
(`false` models the nil pointer left by the individual manager). -/
structure Device where
  name : String
  attributes : List (String × AttrValue)
  capacity : List (String × Int)
  allowMultipleAllocations : Bool
deriving DecidableEq

/-- The Go zero value `resourceapi.Device{}`. -/
instance : Inhabited Device := ⟨⟨"", [], [], false⟩⟩

/-- `MakeIndividualAttributes` (attributes.go). -/
def MakeIndividualAttributes (cpu : CPUInfo) : List (String × AttrValue) :=
  [("dra.cpu/numaNodeID", AttrValue.intValue cpu.numaNodeID),
   ("dra.cpu/cacheL3ID", AttrValue.intValue cpu.uncoreCacheID),
   ("dra.cpu/coreType", AttrValue.stringValue cpu.coreType),
   ("dra.cpu/socketID", AttrValue.intValue cpu.socketID),
   ("dra.cpu/coreID", AttrValue.intValue cpu.coreID),
   ("dra.cpu/cpuID", AttrValue.intValue cpu.cpuID),
   ("dra.net/numaNode", AttrValue.intValue cpu.numaNodeID)]

/-- `MakeGroupedAttributes` (attributes.go). -/
def MakeGroupedAttributes (topo : CPUTopology) (socketID : Int) (allocatableCPUs : CPUSet) :
    List (String × AttrValue) :=
  [("dra.cpu/socketID", AttrValue.intValue socketID),
   ("dra.cpu/numCPUs", AttrValue.intValue allocatableCPUs.card),
   ("dra.cpu/smtEnabled", AttrValue.boolValue topo.smtEnabled)]

/-! ## Chunking (slices.Chunk of the individual manager) -/

/-- `slices.Chunk(l, n)` driven by fuel so that it reduces in the kernel:
consecutive sub-slices of up to `n` elements, none empty. -/
def chunkAux (n : Nat) : Nat → List α → List (List α)
  | 0, _ => []
  | _ + 1, [] => []
  | fuel + 1, x :: xs => (x :: xs).take n :: chunkAux n fuel ((x :: xs).drop n)

/-- `slices.Collect(slices.Chunk(l, n))`. -/
def chunkList (n : Nat) (l : List α) : List (List α) := chunkAux n l.length l

/-! ## Claims (the parts of resourceapi the sources read) -/

/-- One entry of `claim.Status.Allocation.Devices.Results`. -/
structure AllocationResult where
  driver : String
  device : String
  consumedCapacity : List (String × Int)
deriving DecidableEq

/-- The part of `resourceapi.ResourceClaim` the driver reads: the allocation
status, absent (`none`) when `claim.Status.Allocation == nil`. -/
structure ResourceClaim where
  allocation : Option (List AllocationResult)
deriving DecidableEq

/-- Reading a Go map-backed association list: `m[k]` with its ok-flag. -/
def lookupAssoc (m : List (String × α)) (k : String) : Option α :=
  (m.find? (fun e => e.1 = k)).map (fun e => e.2)

/-! ## IndividualCoreManager (individual.go) -/

/-- The `availableCPUs` slice of `IndividualCoreManager.CreateSlices`: every
non-reserved CPU descriptor, sorted ascending by CPU ID. -/
def availableCPUsSorted (topo : CPUTopology) (resv : CPUSet) : List CPUInfo :=
  List.insertionSort (fun a b => a.cpuID ≤ b.cpuID)
    (topo.cpuDetails.filter (fun c => c.cpuID ∉ resv))

/-- The grouping loop of `IndividualCoreManager.CreateSlices`: walk the
available CPUs once; a CPU whose sibling is the sentinel or reserved forms a
singleton group, otherwise it pairs with the sibling's descriptor from
`cpuInfoMap`, and both are marked processed. -/
def buildCoreGroups (topo : CPUTopology) (resv : CPUSet) :
    List CPUInfo → Finset Int → List (List CPUInfo)
  | [], _ => []
  | cpu :: rest, processed =>
    if cpu.cpuID ∈ processed then
      buildCoreGroups topo resv rest processed
    else if cpu.siblingCpuID = -1 ∨ cpu.siblingCpuID ∈ resv then
      [cpu] :: buildCoreGroups topo resv rest (insert cpu.cpuID processed)
    else
      [cpu, topo.lookup cpu.siblingCpuID] ::
        buildCoreGroups topo resv rest (insert cpu.siblingCpuID (insert cpu.cpuID processed))

/-- `coreGroups` after the final sort by each group's first CPU ID. -/
def coreGroupsSorted (topo : CPUTopology) (resv : CPUSet) : List (List CPUInfo) :=
  List.insertionSort (fun g h => g.headI.cpuID ≤ h.headI.cpuID)
    (buildCoreGroups topo resv (availableCPUsSorted topo resv) ∅)

/-- The device-emission loop of `IndividualCoreManager.CreateSlices`: one
device per CPU in group order, named by the running `devId`, paired with the
`deviceNameToCPUID` index entry written for it. -/
def individualEntries (topo : CPUTopology) (resv : CPUSet) :
    List (Device × (String × Int)) :=
  ((coreGroupsSorted topo resv).flatten.enum).map (fun p =>
    ({ name := indivDeviceName p.1,
       attributes := MakeIndividualAttributes p.2,
       capacity := [],
       allowMultipleAllocations := false },
     (indivDeviceName p.1, p.2.cpuID)))

/-- The `allDevices` list accumulated by `IndividualCoreManager.CreateSlices`. -/
def individualDevices (topo : CPUTopology) (resv : CPUSet) : List Device :=
  (individualEntries topo resv).map Prod.fst

/-- `IndividualCoreManager.CreateSlices`: the emitted devices, chunked into
slices of at most `maxDevicesPerResourceSlice`; nil when empty. -/
def individualCreateSlices (topo : CPUTopology) (resv : CPUSet) : List (List Device) :=
  let allDevices := individualDevices topo resv
  if allDevices = [] then [] else chunkList maxDevicesPerResourceSlice allDevices

/-- The `deviceNameToCPUID` index populated by `IndividualCoreManager.CreateSlices`. -/
def individualDeviceIndex (topo : CPUTopology) (resv : CPUSet) : List (String × Int) :=
  (individualEntries topo resv).map Prod.snd

/-- The result-accumulation loop of `IndividualCoreManager.AllocateCPUs` over
`claim.Status.Allocation.Devices.Results`, carrying `claimCPUIDs`. -/
def individualAllocLoop (driverName : String) (index : List (String × Int)) :
    List AllocationResult → List Int → CPUSet × Option String
  | [], claimCPUIDs =>
    if claimCPUIDs = [] then (∅, none) else (claimCPUIDs.toFinset, none)
  | alloc :: rest, claimCPUIDs =>
    if alloc.driver ≠ driverName then
      individualAllocLoop driverName index rest claimCPUIDs
    else
      match lookupAssoc index alloc.device with
      | none => (∅, some ("device \"" ++ alloc.device ++ "\" not found in device to CPU ID map"))
      | some cpuID => individualAllocLoop driverName index rest (claimCPUIDs ++ [cpuID])

/-- `IndividualCoreManager.AllocateCPUs` over the claim's allocation results. -/
def individualAllocateCPUs (driverName : String) (index : List (String × Int))
    (results : List AllocationResult) : CPUSet × Option String :=
  individualAllocLoop driverName index results []

/-! ## The packing primitive (package cpumanager, consumed) -/

/-- Take the `n` smallest elements of a pool (all of it if `n` exceeds its
size). -/
def takeSmallest (pool : CPUSet) : Nat → CPUSet
  | 0 => ∅
  | n + 1 =>
    match pool.min with
    | ⊤ => ∅
    | (m : Int) => insert m (takeSmallest (pool.erase m) n)

/-- Modelled from the spec: `cpumanager.TakeByTopologyNUMAPacked` is not among
the sources; the spec describes it as "given a pool and a required count,
returns an exact-size topology-aware CPU selection or fails", the failure
being the insufficient-pool failure (pool smaller than N). Its topology-aware
tie-breaking is opaque ("treated as an opaque contract: deterministic,
topology-biased toward packing"), so this model deterministically selects the
required count of smallest CPU IDs from the pool. -/
def TakeByTopologyNUMAPacked (_topo : CPUTopology) (availableCPUs : CPUSet)
    (numCPUs : Int) : CPUSet × Option String :=
  if numCPUs ≤ (availableCPUs.card : Int) then
    (takeSmallest availableCPUs numCPUs.toNat, none)
  else
    (∅, some "not enough cpus available to satisfy request")

/-! ## SocketGroupedManager (grouped_socket.go) -/

/-- The per-socket loop of `SocketGroupedManager.CreateSlices`: skip sockets
whose CPUs are all reserved, otherwise emit the device (capacity = allocatable
CPU count, shareable) paired with its `deviceNameToSocketID` index entry. -/
def socketEntries (topo : CPUTopology) (resv : CPUSet) :
    List (Device × (String × Int)) :=
  topo.sockets.filterMap (fun socketIDInt =>
    let deviceName := socketDeviceName socketIDInt
    let socketCPUSet := topo.cpusInSocket socketIDInt
    let allocatableCPUs := socketCPUSet \ resv
    if allocatableCPUs.card = 0 then none
    else some
      ({ name := deviceName,
         attributes := MakeGroupedAttributes topo socketIDInt allocatableCPUs,
         capacity := [(cpuResourceQualifiedName, (allocatableCPUs.card : Int))],
         allowMultipleAllocations := true },
       (deviceName, socketIDInt)))

/-- The devices emitted by `SocketGroupedManager.CreateSlices`. -/
def socketDevices (topo : CPUTopology) (resv : CPUSet) : List Device :=
  (socketEntries topo resv).map Prod.fst

/-- The `deviceNameToSocketID` index populated by `SocketGroupedManager.CreateSlices`. -/
def socketDeviceIndex (topo : CPUTopology) (resv : CPUSet) : List (String × Int) :=
  (socketEntries topo resv).map Prod.snd

/-- `SocketGroupedManager.CreateSlices`: nil when no device was emitted,
otherwise all devices wrapped in one single slice. -/
def socketCreateSlices (topo : CPUTopology) (resv : CPUSet) : List (List Device) :=
  let devices := socketDevices topo resv
  if devices = [] then [] else [devices]

/-- The result loop of `SocketGroupedManager.AllocateCPUs`, accumulating
`cpuAssignment`; `sharedCPUs` is the value `mgr.getSharedCPUs()` returns
during this call. -/
def socketAllocLoop (driverName : String) (topo : CPUTopology)
    (index : List (String × Int)) (sharedCPUs : CPUSet) :
    List AllocationResult → CPUSet → CPUSet × Option String
  | [], cpuAssignment => (cpuAssignment, none)
  | alloc :: rest, cpuAssignment =>
    if alloc.driver ≠ driverName then
      socketAllocLoop driverName topo index sharedCPUs rest cpuAssignment
    else
      let claimCPUCount := (lookupAssoc alloc.consumedCapacity cpuResourceQualifiedName).getD 0
      match lookupAssoc index alloc.device with
      | none => (∅, some ("no valid socket ID found for device " ++ alloc.device))
      | some socketID =>
        let socketCPUs := topo.cpusInSocket socketID
        let availableCPUsForDevice := sharedCPUs ∩ socketCPUs
        match TakeByTopologyNUMAPacked topo availableCPUsForDevice claimCPUCount with
        | (_, some e) => (∅, some e)
        | (cur, none) =>
          socketAllocLoop driverName topo index sharedCPUs rest (cpuAssignment ∪ cur)

/-- `SocketGroupedManager.AllocateCPUs` over the claim's allocation results
(the final empty-assignment check returns the same empty set and nil error,
so the loop's value is the call's value). -/
def socketAllocateCPUs (driverName : String) (topo : CPUTopology)
    (index : List (String × Int)) (sharedCPUs : CPUSet)
    (results : List AllocationResult) : CPUSet × Option String :=
  socketAllocLoop driverName topo index sharedCPUs results ∅

/-! ## NUMAGroupedManager (grouped_numa.go) -/

/-- The per-NUMA-node loop of `NUMAGroupedManager.CreateSlices`. `pick`
resolves `allocatableCPUs.UnsortedList()[0]`, whose position in Go's unsorted
enumeration is unspecified; the socket-ID attribute is read from the picked
member's descriptor. -/
def numaEntries (topo : CPUTopology) (resv : CPUSet) (pick : CPUSet → Int) :
    List (Device × (String × Int)) :=
  topo.numaNodes.filterMap (fun numaIDInt =>
    let deviceName := numaDeviceName numaIDInt
    let numaNodeCPUSet := topo.cpusInNUMANode numaIDInt
    let allocatableCPUs := numaNodeCPUSet \ resv
    if allocatableCPUs.card = 0 then none
    else
      let anyCPU := pick allocatableCPUs
      let socketID := (topo.lookup anyCPU).socketID
      some
        ({ name := deviceName,
           attributes := MakeGroupedAttributes topo socketID allocatableCPUs ++
             [("dra.cpu/numaNodeID", AttrValue.intValue numaIDInt),
              ("dra.net/numaNode", AttrValue.intValue numaIDInt)],
           capacity := [(cpuResourceQualifiedName, (allocatableCPUs.card : Int))],
           allowMultipleAllocations := true },
         (deviceName, numaIDInt)))

/-- The devices emitted by `NUMAGroupedManager.CreateSlices`. -/
def numaDevices (topo : CPUTopology) (resv : CPUSet) (pick : CPUSet → Int) : List Device :=
  (numaEntries topo resv pick).map Prod.fst

/-- The `deviceNameToNUMANodeID` index populated by `NUMAGroupedManager.CreateSlices`. -/
def numaDeviceIndex (topo : CPUTopology) (resv : CPUSet) (pick : CPUSet → Int) :
    List (String × Int) :=
  (numaEntries topo resv pick).map Prod.snd

/-- `NUMAGroupedManager.CreateSlices`: nil when no device was emitted,
otherwise all devices wrapped in one single slice. -/
def numaCreateSlices (topo : CPUTopology) (resv : CPUSet) (pick : CPUSet → Int) :
    List (List Device) :=
  let devices := numaDevices topo resv pick
  if devices = [] then [] else [devices]

/-- The result loop of `NUMAGroupedManager.AllocateCPUs`, accumulating
`cpuAssignment`. -/
def numaAllocLoop (driverName : String) (topo : CPUTopology)
    (index : List (String × Int)) (sharedCPUs : CPUSet) :
    List AllocationResult → CPUSet → CPUSet × Option String
  | [], cpuAssignment => (cpuAssignment, none)
  | alloc :: rest, cpuAssignment =>
    if alloc.driver ≠ driverName then
      numaAllocLoop driverName topo index sharedCPUs rest cpuAssignment
    else
      let claimCPUCount := (lookupAssoc alloc.consumedCapacity cpuResourceQualifiedName).getD 0
      match lookupAssoc index alloc.device with
      | none => (∅, some ("no valid NUMA node ID found for device " ++ alloc.device))
      | some numaNodeID =>
        let numaCPUs := topo.cpusInNUMANode numaNodeID
        let availableCPUsForDevice := sharedCPUs ∩ numaCPUs
        match TakeByTopologyNUMAPacked topo availableCPUsForDevice claimCPUCount with
        | (_, some e) => (∅, some e)
        | (cur, none) =>
          numaAllocLoop driverName topo index sharedCPUs rest (cpuAssignment ∪ cur)

/-- `NUMAGroupedManager.AllocateCPUs` over the claim's allocation results. -/
def numaAllocateCPUs (driverName : String) (topo : CPUTopology)
    (index : List (String × Int)) (sharedCPUs : CPUSet)
    (results : List AllocationResult) : CPUSet × Option String :=
  numaAllocLoop driverName topo index sharedCPUs results ∅

/-- The failure condition of one grouped-manager allocation result: the claim
names this driver and either the device is absent from the manager's index or
the packing primitive fails on the device's pool for the requested count. -/
def groupedResultFails (driverName : String) (topo : CPUTopology)
    (index : List (String × Int)) (shared : CPUSet) (coordCPUs : Int → CPUSet)
    (r : AllocationResult) : Prop :=
  r.driver = driverName ∧
    (lookupAssoc index r.device = none ∨
      ∃ cid, lookupAssoc index r.device = some cid ∧
        ∃ e, (TakeByTopologyNUMAPacked topo (shared ∩ coordCPUs cid)
          ((lookupAssoc r.consumedCapacity cpuResourceQualifiedName).getD 0)).2 = some e)

/-! ## Claim preparation (driver.go) -/

/-- The outcome of `CPUDriver.prepareResourceClaim` as far as the device layer
is concerned: either an error value, or the claim's resolved CPU set (which
the driver then records and renders into the CDI environment variable). -/
structure PrepareResult where
  err : Option String
  cpus : CPUSet
deriving DecidableEq

/-- `CPUDriver.prepareResourceClaim`: a claim with no allocation status yields
an error result; otherwise the configured manager's `AllocateCPUs` runs and
its error, if any, becomes the result's error. -/
def prepareResourceClaim
    (allocateCPUs : List AllocationResult → CPUSet × Option String)
    (claim : ResourceClaim) : PrepareResult :=
  match claim.allocation with
  | none => { err := some "claim has no allocation", cpus := ∅ }
  | some results =>
    match allocateCPUs results with
    | (_, some e) => { err := some e, cpus := ∅ }
    | (claimCPUSet, none) => { err := none, cpus := claimCPUSet }

/-! ## Concrete topology snapshots used to instantiate the statements -/

/-- The spec's SMT example: CPUs {0,1,2,3}, sibling pairs 0↔2 (core 0) and
1↔3 (core 1), one socket, one NUMA node. -/
def topoSib : CPUTopology :=
  { smtEnabled := true,
    cpuDetails :=
      [⟨0, 0, 0, 0, 0, 2, "P"⟩, ⟨1, 1, 0, 0, 0, 3, "P"⟩,
       ⟨2, 0, 0, 0, 0, 0, "P"⟩, ⟨3, 1, 0, 0, 0, 1, "P"⟩] }

/-- 300 sibling-less CPUs 0..299 on one socket and one NUMA node. -/
def topo300 : CPUTopology :=
  { smtEnabled := false,
    cpuDetails := (List.range 300).map (fun i => ⟨i, i, 0, 0, 0, -1, "P"⟩) }

/-- 129 sibling-less CPUs, CPU `i` alone on socket `i` and NUMA node `i`:
a catalog of 129 devices for the grouped managers. -/
def topo129 : CPUTopology :=
  { smtEnabled := false,
    cpuDetails := (List.range 129).map (fun i => ⟨i, 0, i, i, 0, -1, "P"⟩) }

/-- A topology whose single NUMA node spans two sockets: CPU 0 on socket 0
and CPU 1 on socket 1, both on NUMA node 0. -/
def topoSpan : CPUTopology :=
  { smtEnabled := false,
    cpuDetails := [⟨0, 0, 0, 0, 0, -1, "P"⟩, ⟨1, 0, 1, 0, 0, -1, "P"⟩] }

/-- A resolution of `UnsortedList()[0]` that favors CPU 0. -/
def pickZero : CPUSet → Int := fun s => if (0 : Int) ∈ s then 0 else 1

/-- A resolution of `UnsortedList()[0]` that favors CPU 1. -/
def pickOne : CPUSet → Int := fun s => if (1 : Int) ∈ s then 1 else 0

/-- A resolution of `UnsortedList()[0]` returning the smallest member. -/
def pickMinD (s : CPUSet) : Int := WithTop.untop' 0 s.min

/-- A resolution of `UnsortedList()[0]` returning the largest member. -/
def pickMaxD (s : CPUSet) : Int := WithBot.unbot' 0 s.max

end DraCpu

/-! # Theorems

General lemmas about the embedded operations, followed by the claim theorems. -/

set_option maxRecDepth 10000

namespace DraCpu

/- C7: all-foreign results yield empty/no-error; foreign results are ignored -/

theorem individualAllocLoop_filter (driverName : String) (index : List (String × Int)) :
    ∀ (results : List AllocationResult) (acc : List Int),
      individualAllocLoop driverName index results acc =
        individualAllocLoop driverName index
          (results.filter (fun r => r.driver = driverName)) acc := by
  intro results
  induction results with
  | nil => intro acc; rfl
  | cons r rest ih =>
    intro acc
    by_cases hr : r.driver = driverName
    · have hne : ¬ r.driver ≠ driverName := by simp [hr]
      rw [List.filter_cons, if_pos (by simp [hr])]
      simp only [individualAllocLoop, if_neg hne]
      cases hfind : lookupAssoc index r.device with
      | none => simp [individualAllocLoop, hne, hfind]
      | some cpuID => simp [individualAllocLoop, hne, hfind, ih]
    · rw [List.filter_cons, if_neg (by simp [hr])]
      simp only [individualAllocLoop, if_pos hr]
      exact ih acc

theorem socketAllocLoop_filter (driverName : String) (topo : CPUTopology)
    (index : List (String × Int)) (shared : CPUSet) :
    ∀ (results : List AllocationResult) (acc : CPUSet),
      socketAllocLoop driverName topo index shared results acc =
        socketAllocLoop driverName topo index shared
          (results.filter (fun r => r.driver = driverName)) acc := by
  intro results
  induction results with
  | nil => intro acc; rfl
  | cons r rest ih =>
    intro acc
    by_cases hr : r.driver = driverName
    · have hne : ¬ r.driver ≠ driverName := by simp [hr]
      rw [List.filter_cons, if_pos (by simp [hr])]
      simp only [socketAllocLoop, if_neg hne]
      cases hfind : lookupAssoc index r.device with
      | none => simp [socketAllocLoop, hne, hfind]
      | some sid =>
        simp only [socketAllocLoop, if_neg hne, hfind]
        cases htake : TakeByTopologyNUMAPacked topo
            (shared ∩ topo.cpusInSocket sid)
            ((lookupAssoc r.consumedCapacity cpuResourceQualifiedName).getD 0) with
        | mk cur errOpt =>
          cases errOpt with
          | none => simp [htake, ih]
          | some e => simp [htake]
    · rw [List.filter_cons, if_neg (by simp [hr])]
      simp only [socketAllocLoop, if_pos hr]
      exact ih acc



theorem numaAllocLoop_filter (driverName : String) (topo : CPUTopology)
    (index : List (String × Int)) (shared : CPUSet) :
    ∀ (results : List AllocationResult) (acc : CPUSet),
      numaAllocLoop driverName topo index shared results acc =
        numaAllocLoop driverName topo index shared
          (results.filter (fun r => r.driver = driverName)) acc := by
  intro results
  induction results with
  | nil => intro acc; rfl
  | cons r rest ih =>
    intro acc
    by_cases hr : r.driver = driverName
    · have hne : ¬ r.driver ≠ driverName := by simp [hr]
      rw [List.filter_cons, if_pos (by simp [hr])]
      simp only [numaAllocLoop, if_neg hne]
      cases hfind : lookupAssoc index r.device with
      | none => simp [numaAllocLoop, hne, hfind]
      | some nid =>
        simp only [numaAllocLoop, if_neg hne, hfind]
        cases htake : TakeByTopologyNUMAPacked topo
            (shared ∩ topo.cpusInNUMANode nid)
            ((lookupAssoc r.consumedCapacity cpuResourceQualifiedName).getD 0) with
        | mk cur errOpt =>
          cases errOpt with
          | none => simp [htake, ih]
          | some e => simp [htake]
    · rw [List.filter_cons, if_neg (by simp [hr])]
      simp only [numaAllocLoop, if_pos hr]
      exact ih acc

/- C3 abort lemmas -/

theorem individualAllocLoop_err (driverName : String) (index : List (String × Int)) :
    ∀ (results : List AllocationResult) (acc : List Int),
      (∃ r ∈ results, r.driver = driverName ∧ lookupAssoc index r.device = none) →
      ∃ e, individualAllocLoop driverName index results acc = (∅, some e) := by
  intro results
  induction results with
  | nil => intro acc h; simp at h
  | cons r rest ih =>
    intro acc h
    by_cases hr : r.driver = driverName
    · have hne : ¬ r.driver ≠ driverName := by simp [hr]
      cases hfind : lookupAssoc index r.device with
      | none =>
        refine ⟨"device \"" ++ r.device ++ "\" not found in device to CPU ID map", ?_⟩
        simp [individualAllocLoop, hne, hfind]
      | some cpuID =>
        have htail : ∃ x ∈ rest, x.driver = driverName ∧ lookupAssoc index x.device = none := by
          rcases h with ⟨x, hx, hdrv, hlook⟩
          rcases List.mem_cons.mp hx with rfl | hx
          · rw [hfind] at hlook; exact absurd hlook (by simp)
          · exact ⟨x, hx, hdrv, hlook⟩
        simp only [individualAllocLoop, if_neg hne, hfind]
        exact ih _ htail
    · have htail : ∃ x ∈ rest, x.driver = driverName ∧ lookupAssoc index x.device = none := by
        rcases h with ⟨x, hx, hdrv, hlook⟩
        rcases List.mem_cons.mp hx with rfl | hx
        · exact absurd hdrv hr
        · exact ⟨x, hx, hdrv, hlook⟩
      simp only [individualAllocLoop, if_pos hr]
      exact ih _ htail

theorem socketAllocLoop_err (driverName : String) (topo : CPUTopology)
    (index : List (String × Int)) (shared : CPUSet) :
    ∀ (results : List AllocationResult) (acc : CPUSet),
      (∃ r ∈ results,
        groupedResultFails driverName topo index shared (topo.cpusInSocket) r) →
      ∃ e, socketAllocLoop driverName topo index shared results acc = (∅, some e) := by
  intro results
  induction results with
  | nil => intro acc h; simp at h
  | cons r rest ih =>
    intro acc h
    by_cases hr : r.driver = driverName
    · have hne : ¬ r.driver ≠ driverName := by simp [hr]
      cases hfind : lookupAssoc index r.device with
      | none =>
        refine ⟨"no valid socket ID found for device " ++ r.device, ?_⟩
        simp [socketAllocLoop, hne, hfind]
      | some sid =>
        cases htake : TakeByTopologyNUMAPacked topo (shared ∩ topo.cpusInSocket sid)
            ((lookupAssoc r.consumedCapacity cpuResourceQualifiedName).getD 0) with
        | mk cur errOpt =>
          cases errOpt with
          | some e =>
            refine ⟨e, ?_⟩
            simp [socketAllocLoop, hne, hfind, htake]
          | none =>
            have htail : ∃ x ∈ rest,
                groupedResultFails driverName topo index shared (topo.cpusInSocket) x := by
              rcases h with ⟨x, hx, hfail⟩
              rcases List.mem_cons.mp hx with rfl | hx
              · rcases hfail with ⟨_, hlook | ⟨cid, hcid, e, he⟩⟩
                · rw [hfind] at hlook; exact absurd hlook (by simp)
                · rw [hfind] at hcid
                  have : cid = sid := by injection hcid with h; exact h.symm
                  subst this
                  rw [htake] at he
                  exact absurd he (by simp)
              · exact ⟨x, hx, hfail⟩
            simp only [socketAllocLoop, if_neg hne, hfind, htake]
            exact ih _ htail
    · have htail : ∃ x ∈ rest,
          groupedResultFails driverName topo index shared (topo.cpusInSocket) x := by
        rcases h with ⟨x, hx, hfail⟩
        rcases List.mem_cons.mp hx with rfl | hx
        · exact absurd hfail.1 hr
        · exact ⟨x, hx, hfail⟩
      simp only [socketAllocLoop, if_pos hr]
      exact ih _ htail



theorem takeSmallest_subset (n : Nat) :
    ∀ (pool : CPUSet), takeSmallest pool n ⊆ pool := by
  induction n with
  | zero => intro pool; simp [takeSmallest]
  | succ n ih =>
    intro pool
    rcases hm : pool.min with _ | m
    · simp [takeSmallest, hm]
    · simp only [takeSmallest, hm]
      intro x hx
      rcases Finset.mem_insert.mp hx with rfl | hx
      · exact Finset.mem_of_min hm
      · exact Finset.erase_subset m pool (ih (pool.erase m) hx)



theorem TakeByTopologyNUMAPacked_ok_subset (topo : CPUTopology) (pool : CPUSet)
    (n : Int) (cur : CPUSet) (h : TakeByTopologyNUMAPacked topo pool n = (cur, none)) :
    cur ⊆ pool := by
  unfold TakeByTopologyNUMAPacked at h
  split at h
  · injection h with h1 h2
    subst h1
    exact takeSmallest_subset n.toNat pool
  · injection h with h1 h2
    exact absurd h2.symm (by simp)

theorem socketAllocLoop_fst_subset (driverName : String) (topo : CPUTopology)
    (index : List (String × Int)) (shared : CPUSet) :
    ∀ (results : List AllocationResult) (acc : CPUSet),
      (socketAllocLoop driverName topo index shared results acc).1 ⊆ acc ∪ shared := by
  intro results
  induction results with
  | nil => intro acc; exact Finset.subset_union_left
  | cons r rest ih =>
    intro acc
    by_cases hr : r.driver = driverName
    · have hne : ¬ r.driver ≠ driverName := by simp [hr]
      cases hfind : lookupAssoc index r.device with
      | none => simp [socketAllocLoop, hne, hfind]
      | some sid =>
        cases htake : TakeByTopologyNUMAPacked topo (shared ∩ topo.cpusInSocket sid)
            ((lookupAssoc r.consumedCapacity cpuResourceQualifiedName).getD 0) with
        | mk cur errOpt =>
          cases errOpt with
          | some e => simp [socketAllocLoop, hne, hfind, htake]
          | none =>
            simp only [socketAllocLoop, if_neg hne, hfind, htake]
            have hcur : cur ⊆ shared :=
              (TakeByTopologyNUMAPacked_ok_subset topo _ _ _ htake).trans
                Finset.inter_subset_left
            refine (ih (acc ∪ cur)).trans ?_
            intro x hx
            rcases Finset.mem_union.mp hx with hx | hx
            · rcases Finset.mem_union.mp hx with hx | hx
              · exact Finset.mem_union_left _ hx
              · exact Finset.mem_union_right _ (hcur hx)
            · exact Finset.mem_union_right _ hx
    · simp only [socketAllocLoop, if_pos hr]
      exact ih acc

theorem numaAllocLoop_fst_subset (driverName : String) (topo : CPUTopology)
    (index : List (String × Int)) (shared : CPUSet) :
    ∀ (results : List AllocationResult) (acc : CPUSet),
      (numaAllocLoop driverName topo index shared results acc).1 ⊆ acc ∪ shared := by
  intro results
  induction results with
  | nil => intro acc; exact Finset.subset_union_left
  | cons r rest ih =>
    intro acc
    by_cases hr : r.driver = driverName
    · have hne : ¬ r.driver ≠ driverName := by simp [hr]
      cases hfind : lookupAssoc index r.device with
      | none => simp [numaAllocLoop, hne, hfind]
      | some nid =>
        cases htake : TakeByTopologyNUMAPacked topo (shared ∩ topo.cpusInNUMANode nid)
            ((lookupAssoc r.consumedCapacity cpuResourceQualifiedName).getD 0) with
        | mk cur errOpt =>
          cases errOpt with
          | some e => simp [numaAllocLoop, hne, hfind, htake]
          | none =>
            simp only [numaAllocLoop, if_neg hne, hfind, htake]
            have hcur : cur ⊆ shared :=
              (TakeByTopologyNUMAPacked_ok_subset topo _ _ _ htake).trans
                Finset.inter_subset_left
            refine (ih (acc ∪ cur)).trans ?_
            intro x hx
            rcases Finset.mem_union.mp hx with hx | hx
            · rcases Finset.mem_union.mp hx with hx | hx
              · exact Finset.mem_union_left _ hx
              · exact Finset.mem_union_right _ (hcur hx)
            · exact Finset.mem_union_right _ hx
    · simp only [numaAllocLoop, if_pos hr]
      exact ih acc



theorem lookup_eq_of_mem (topo : CPUTopology)
    (hnd : (topo.cpuDetails.map (fun c => c.cpuID)).Nodup)
    (d : CPUInfo) (hd : d ∈ topo.cpuDetails) : topo.lookup d.cpuID = d := by
  unfold CPUTopology.lookup
  have hsome : (topo.cpuDetails.find? (fun c => c.cpuID = d.cpuID)).isSome = true := by
    rw [List.find?_isSome]
    exact ⟨d, hd, by simp⟩
  rcases Option.isSome_iff_exists.mp hsome with ⟨a, ha⟩
  have hpa : a.cpuID = d.cpuID := by
    have := List.find?_some ha
    simpa using this
  have hmem : a ∈ topo.cpuDetails := List.mem_of_find?_eq_some ha
  have : a = d := List.inj_on_of_nodup_map hnd hmem hd hpa
  rw [ha, this]
  rfl

/-- Under `Valid`, a non-sentinel sibling's looked-up descriptor is the
topology's matching entry, with the sibling's ID. -/
theorem lookup_sibling (topo : CPUTopology) (hv : topo.Valid)
    (c : CPUInfo) (hc : c ∈ topo.cpuDetails) (hs : c.siblingCpuID ≠ -1) :
    topo.lookup c.siblingCpuID ∈ topo.cpuDetails ∧
    (topo.lookup c.siblingCpuID).cpuID = c.siblingCpuID := by
  rcases hv with ⟨hnd, _, hsib⟩
  rcases hsib c hc with h | ⟨_, d, hd, hdid, _⟩
  · exact absurd h hs
  · have : topo.lookup c.siblingCpuID = d := by
      rw [← hdid]
      exact lookup_eq_of_mem topo hnd d hd
    rw [this]
    exact ⟨hd, hdid⟩

theorem buildCoreGroups_not_reserved (topo : CPUTopology) (resv : CPUSet)
    (hv : topo.Valid) :
    ∀ (l : List CPUInfo) (processed : Finset Int),
      (∀ c ∈ l, c ∈ topo.cpuDetails) →
      (∀ c ∈ l, c.cpuID ∉ resv) →
      ∀ g ∈ buildCoreGroups topo resv l processed, ∀ cpu ∈ g, cpu.cpuID ∉ resv := by
  intro l
  induction l with
  | nil => intro processed _ _ g hg; simp [buildCoreGroups] at hg
  | cons c rest ih =>
    intro processed hmem hres g hg cpu hcpu
    by_cases hp : c.cpuID ∈ processed
    · simp only [buildCoreGroups, if_pos hp] at hg
      exact ih processed (fun x hx => hmem x (by simp [hx]))
        (fun x hx => hres x (by simp [hx])) g hg cpu hcpu
    · by_cases hsib : c.siblingCpuID = -1 ∨ c.siblingCpuID ∈ resv
      · simp only [buildCoreGroups, if_neg hp, if_pos hsib] at hg
        rcases List.mem_cons.mp hg with rfl | hg
        · rcases List.mem_singleton.mp hcpu with rfl
          exact hres cpu (by simp)
        · exact ih _ (fun x hx => hmem x (by simp [hx]))
            (fun x hx => hres x (by simp [hx])) g hg cpu hcpu
      · simp only [buildCoreGroups, if_neg hp, if_neg hsib] at hg
        push_neg at hsib
        rcases List.mem_cons.mp hg with rfl | hg
        · rcases List.mem_cons.mp hcpu with rfl | hcpu
          · exact hres cpu (by simp)
          · rcases List.mem_singleton.mp hcpu with rfl
            have hlk := lookup_sibling topo hv c (hmem c (by simp)) hsib.1
            rw [hlk.2]
            exact hsib.2
        · exact ih _ (fun x hx => hmem x (by simp [hx]))
            (fun x hx => hres x (by simp [hx])) g hg cpu hcpu

theorem individualDeviceIndex_not_reserved (topo : CPUTopology) (resv : CPUSet)
    (hv : topo.Valid) :
    ∀ e ∈ individualDeviceIndex topo resv, e.2 ∉ resv := by
  intro e he
  unfold individualDeviceIndex individualEntries at he
  rcases List.mem_map.mp he with ⟨pr, hpr, rfl⟩
  rcases List.mem_map.mp hpr with ⟨p, hp, rfl⟩
  simp only
  have hflat : p.2 ∈ (coreGroupsSorted topo resv).flatten := by
    have := List.mem_enum_iff_getElem?.mp hp
    exact List.getElem?_mem this
  rcases List.mem_flatten.mp hflat with ⟨g, hg, hcpu⟩
  have hg2 : g ∈ buildCoreGroups topo resv (availableCPUsSorted topo resv) ∅ :=
    (List.perm_insertionSort _ _).mem_iff.mp hg
  refine buildCoreGroups_not_reserved topo resv hv _ _ ?_ ?_ g hg2 p.2 hcpu
  · intro c hc
    have : c ∈ topo.cpuDetails.filter (fun c => c.cpuID ∉ resv) :=
      (List.perm_insertionSort _ _).mem_iff.mp hc
    exact (List.mem_filter.mp this).1
  · intro c hc
    have : c ∈ topo.cpuDetails.filter (fun c => c.cpuID ∉ resv) :=
      (List.perm_insertionSort _ _).mem_iff.mp hc
    have := (List.mem_filter.mp this).2
    simpa using this



theorem lookupAssoc_mem {α : Type} (m : List (String × α)) (k : String) (v : α)
    (h : lookupAssoc m k = some v) : (k, v) ∈ m := by
  unfold lookupAssoc at h
  rcases Option.map_eq_some'.mp h with ⟨e, hfind, rfl⟩
  have hk : e.1 = k := by simpa using List.find?_some hfind
  have hmem := List.mem_of_find?_eq_some hfind
  rw [← hk]
  exact hmem

theorem individualAllocLoop_fst_not_reserved (driverName : String)
    (index : List (String × Int)) (resv : CPUSet)
    (hidx : ∀ e ∈ index, e.2 ∉ resv) :
    ∀ (results : List AllocationResult) (acc : List Int),
      (∀ i ∈ acc, i ∉ resv) →
      ∀ x ∈ (individualAllocLoop driverName index results acc).1, x ∉ resv := by
  intro results
  induction results with
  | nil =>
    intro acc hacc x hx
    by_cases h : acc = []
    · simp [individualAllocLoop, h] at hx
    · simp only [individualAllocLoop, if_neg h] at hx
      exact hacc x (List.mem_toFinset.mp hx)
  | cons r rest ih =>
    intro acc hacc x hx
    by_cases hr : r.driver ≠ driverName
    · simp only [individualAllocLoop, if_pos hr] at hx
      exact ih acc hacc x hx
    · cases hfind : lookupAssoc index r.device with
      | none => simp [individualAllocLoop, hr, hfind] at hx
      | some cpuID =>
        simp only [individualAllocLoop, if_neg hr, hfind] at hx
        have hcpu : cpuID ∉ resv := hidx (r.device, cpuID) (lookupAssoc_mem index r.device cpuID hfind)
        refine ih (acc ++ [cpuID]) ?_ x hx
        intro i hi
        rcases List.mem_append.mp hi with hi | hi
        · exact hacc i hi
        · rcases List.mem_singleton.mp hi with rfl
          exact hcpu



theorem natDigitsAux_all_digits :
    ∀ (fuel n : Nat), ∀ c ∈ natDigitsAux fuel n, c.isDigit = true := by
  intro fuel
  induction fuel with
  | zero => intro n c hc; simp [natDigitsAux] at hc
  | succ fuel ih =>
    intro n c hc
    by_cases h : n < 10
    · simp only [natDigitsAux, if_pos h] at hc
      rcases List.mem_singleton.mp hc with rfl
      interval_cases n <;> decide
    · simp only [natDigitsAux, if_neg h] at hc
      rcases List.mem_append.mp hc with hc | hc
      · exact ih _ c hc
      · rcases List.mem_singleton.mp hc with rfl
        have : n % 10 < 10 := Nat.mod_lt _ (by omega)
        set m := n % 10 with hm
        interval_cases m <;> decide

theorem natDigits_ne_nil (n : Nat) : natDigits n ≠ [] := by
  unfold natDigits natDigitsAux
  by_cases h : n < 10 <;> simp [h]

theorem pad3_nat_head_digit (n : Nat) :
    ∃ c cs, pad3 (n : Int) = c :: cs ∧ c.isDigit = true := by
  unfold pad3
  rw [if_neg (by omega)]
  have htn : ((n : Int)).toNat = n := Int.toNat_natCast n
  rw [htn]
  unfold padLeftZero
  cases hrep : List.replicate (3 - (natDigits n).length) '0' with
  | nil =>
    cases hds : natDigits n with
    | nil => exact absurd hds (natDigits_ne_nil n)
    | cons d ds =>
      refine ⟨d, ds, by simp, ?_⟩
      exact natDigitsAux_all_digits (n + 1) n d (by rw [show natDigitsAux (n + 1) n = d :: ds from hds]; simp)
  | cons z zs =>
    refine ⟨z, zs ++ natDigits n, by simp, ?_⟩
    have hz : z = '0' :=
      List.eq_of_mem_replicate (show z ∈ List.replicate (3 - (natDigits n).length) '0' by
        rw [hrep]; exact List.mem_cons_self z zs)
    rw [hz]; decide

theorem indivDeviceName_ne_socketDeviceName (i : Nat) (sid : Int) :
    indivDeviceName i ≠ socketDeviceName sid := by
  intro h
  unfold indivDeviceName socketDeviceName at h
  injection h with hdata
  rcases pad3_nat_head_digit i with ⟨c, cs, hpc, hdig⟩
  rw [hpc] at hdata
  have h1 : (cpuDeviceNamePrefixChars ++ c :: cs)[6]? = some c := by
    simp [cpuDeviceNamePrefixChars]
  rw [hdata] at h1
  have h2 : (cpuDeviceSocketGroupedChars ++ pad3 sid)[6]? = some 's' := by
    simp [cpuDeviceSocketGroupedChars]
  rw [h2] at h1
  have : c = 's' := by injection h1 with h1; exact h1.symm
  rw [this] at hdig
  exact absurd hdig (by decide)

theorem indivDeviceName_ne_numaDeviceName (i : Nat) (nid : Int) :
    indivDeviceName i ≠ numaDeviceName nid := by
  intro h
  unfold indivDeviceName numaDeviceName at h
  injection h with hdata
  rcases pad3_nat_head_digit i with ⟨c, cs, hpc, hdig⟩
  rw [hpc] at hdata
  have h1 : (cpuDeviceNamePrefixChars ++ c :: cs)[6]? = some c := by
    simp [cpuDeviceNamePrefixChars]
  rw [hdata] at h1
  have h2 : (cpuDeviceNUMAGroupedChars ++ pad3 nid)[6]? = some 'n' := by
    simp [cpuDeviceNUMAGroupedChars]
  rw [h2] at h1
  have : c = 'n' := by injection h1 with h1; exact h1.symm
  rw [this] at hdig
  exact absurd hdig (by decide)

theorem socketDeviceName_ne_numaDeviceName (sid nid : Int) :
    socketDeviceName sid ≠ numaDeviceName nid := by
  intro h
  unfold socketDeviceName numaDeviceName at h
  injection h with hdata
  have h1 : (cpuDeviceSocketGroupedChars ++ pad3 sid)[6]? = some 's' := by
    simp [cpuDeviceSocketGroupedChars]
  rw [hdata] at h1
  have h2 : (cpuDeviceNUMAGroupedChars ++ pad3 nid)[6]? = some 'n' := by
    simp [cpuDeviceNUMAGroupedChars]
  rw [h2] at h1
  injection h1 with h1
  exact absurd h1 (by decide)



theorem filterMap_skip_eq_map_filter {α β : Type} (p : α → Prop) [DecidablePred p]
    (f : α → β) (l : List α) :
    (l.filterMap (fun a => if p a then none else some (f a))) =
      (l.filter (fun a => ¬ p a)).map f := by
  induction l with
  | nil => rfl
  | cons x xs ih =>
    by_cases hx : p x <;> simp [List.filterMap_cons, List.filter_cons, hx, ih]

theorem socketEntries_eq (topo : CPUTopology) (resv : CPUSet) :
    socketEntries topo resv =
      (topo.sockets.filter (fun sid => ¬ (topo.cpusInSocket sid \ resv).card = 0)).map
        (fun sid =>
          (({ name := socketDeviceName sid,
              attributes := MakeGroupedAttributes topo sid (topo.cpusInSocket sid \ resv),
              capacity := [(cpuResourceQualifiedName, ((topo.cpusInSocket sid \ resv).card : Int))],
              allowMultipleAllocations := true } : Device),
           (socketDeviceName sid, sid))) := by
  exact filterMap_skip_eq_map_filter
    (fun sid => (topo.cpusInSocket sid \ resv).card = 0)
    (fun sid =>
      (({ name := socketDeviceName sid,
          attributes := MakeGroupedAttributes topo sid (topo.cpusInSocket sid \ resv),
          capacity := [(cpuResourceQualifiedName, ((topo.cpusInSocket sid \ resv).card : Int))],
          allowMultipleAllocations := true } : Device),
       (socketDeviceName sid, sid)))
    topo.sockets

theorem numaEntries_eq (topo : CPUTopology) (resv : CPUSet) (pick : CPUSet → Int) :
    numaEntries topo resv pick =
      (topo.numaNodes.filter (fun nid => ¬ (topo.cpusInNUMANode nid \ resv).card = 0)).map
        (fun nid =>
          (({ name := numaDeviceName nid,
              attributes :=
                MakeGroupedAttributes topo
                  ((topo.lookup (pick (topo.cpusInNUMANode nid \ resv))).socketID)
                  (topo.cpusInNUMANode nid \ resv) ++
                [("dra.cpu/numaNodeID", AttrValue.intValue nid),
                 ("dra.net/numaNode", AttrValue.intValue nid)],
              capacity := [(cpuResourceQualifiedName, ((topo.cpusInNUMANode nid \ resv).card : Int))],
              allowMultipleAllocations := true } : Device),
           (numaDeviceName nid, nid))) := by
  exact filterMap_skip_eq_map_filter
    (fun nid => (topo.cpusInNUMANode nid \ resv).card = 0)
    (fun nid =>
      (({ name := numaDeviceName nid,
          attributes :=
            MakeGroupedAttributes topo
              ((topo.lookup (pick (topo.cpusInNUMANode nid \ resv))).socketID)
              (topo.cpusInNUMANode nid \ resv) ++
            [("dra.cpu/numaNodeID", AttrValue.intValue nid),
             ("dra.net/numaNode", AttrValue.intValue nid)],
          capacity := [(cpuResourceQualifiedName, ((topo.cpusInNUMANode nid \ resv).card : Int))],
          allowMultipleAllocations := true } : Device),
       (numaDeviceName nid, nid)))
    topo.numaNodes




theorem individualDevices_name_shape (topo : CPUTopology) (resv : CPUSet) :
    ∀ d ∈ individualDevices topo resv, ∃ i : Nat, d.name = indivDeviceName i := by
  intro d hd
  unfold individualDevices individualEntries at hd
  rcases List.mem_map.mp hd with ⟨pr, hpr, rfl⟩
  rcases List.mem_map.mp hpr with ⟨p, hp, rfl⟩
  exact ⟨p.1, rfl⟩

theorem socketDevices_name_shape (topo : CPUTopology) (resv : CPUSet) :
    ∀ d ∈ socketDevices topo resv, ∃ sid : Int, d.name = socketDeviceName sid := by
  intro d hd
  rw [socketDevices, socketEntries_eq] at hd
  rcases List.mem_map.mp hd with ⟨pr, hpr, rfl⟩
  rcases List.mem_map.mp hpr with ⟨sid, hsid, rfl⟩
  exact ⟨sid, rfl⟩

theorem numaDevices_name_shape (topo : CPUTopology) (resv : CPUSet) (pick : CPUSet → Int) :
    ∀ d ∈ numaDevices topo resv pick, ∃ nid : Int, d.name = numaDeviceName nid := by
  intro d hd
  rw [numaDevices, numaEntries_eq] at hd
  rcases List.mem_map.mp hd with ⟨pr, hpr, rfl⟩
  rcases List.mem_map.mp hpr with ⟨nid, hnid, rfl⟩
  exact ⟨nid, rfl⟩

/- enum names = range names -/

theorem map_fst_enumFrom_eq_range' {α β : Type} (f : Nat → β) :
    ∀ (l : List α) (n : Nat),
      ((List.enumFrom n l).map (fun p => f p.1)) = (List.range' n l.length).map f := by
  intro l
  induction l with
  | nil => intro n; rfl
  | cons x xs ih =>
    intro n
    rw [List.enumFrom_cons]
    have : (x :: xs).length = xs.length + 1 := rfl
    rw [this, List.range'_succ]
    simp only [List.map_cons]
    rw [ih (n + 1)]

theorem map_fst_enum_eq_range {α β : Type} (f : Nat → β) (l : List α) :
    (l.enum.map (fun p => f p.1)) = (List.range l.length).map f := by
  rw [List.enum_eq_enumFrom, List.range_eq_range']
  exact map_fst_enumFrom_eq_range' f l 0

theorem individualDevices_names (topo : CPUTopology) (resv : CPUSet) :
    (individualDevices topo resv).map Device.name =
      (List.range (coreGroupsSorted topo resv).flatten.length).map indivDeviceName := by
  unfold individualDevices individualEntries
  rw [List.map_map, List.map_map]
  exact map_fst_enum_eq_range indivDeviceName (coreGroupsSorted topo resv).flatten



theorem filter_erase_perm (P : Finset Int) (s : Int) :
    ∀ (l : List CPUInfo), ((l.map (fun c => c.cpuID)).Nodup) →
      (∃ d ∈ l, d.cpuID = s) → s ∉ P →
      ((l.filter (fun c => c.cpuID ∉ P)).map (fun c => c.cpuID)).Perm
        (s :: ((l.filter (fun c => c.cpuID ∉ insert s P)).map (fun c => c.cpuID))) := by
  intro l
  induction l with
  | nil => intro _ hex _; simp at hex
  | cons x xs ih =>
    intro hnd hex hsP
    rw [List.map_cons, List.nodup_cons] at hnd
    by_cases hx : x.cpuID = s
    · have hkeep : (decide (x.cpuID ∉ P)) = true := by simp [hx, hsP]
      have hdrop : (decide (x.cpuID ∉ insert s P)) = false := by simp [hx]
      rw [@List.filter_cons_of_pos _ (fun c => decide (c.cpuID ∉ P)) x xs hkeep,
        @List.filter_cons_of_neg _ (fun c => decide (c.cpuID ∉ insert s P)) x xs (by simp only [hdrop]; exact Bool.false_ne_true)]
      simp only [List.map_cons, hx]
      have hcongr : xs.filter (fun c => c.cpuID ∉ P) =
          xs.filter (fun c => c.cpuID ∉ insert s P) := by
        apply List.filter_congr
        intro c hc
        have hne : c.cpuID ≠ s := by
          intro he
          exact hnd.1 (show x.cpuID ∈ List.map (fun c => c.cpuID) xs by
            rw [hx, ← he]; exact List.mem_map_of_mem _ hc)
        simp [Finset.mem_insert, hne]
      rw [hcongr]
    · have hex2 : ∃ d ∈ xs, d.cpuID = s := by
        rcases hex with ⟨d, hd, hds⟩
        rcases List.mem_cons.mp hd with rfl | hd
        · exact absurd hds hx
        · exact ⟨d, hd, hds⟩
      by_cases hxP : x.cpuID ∈ P
      · have h1 : (decide (x.cpuID ∉ P)) = false := by simp [hxP]
        have h2 : (decide (x.cpuID ∉ insert s P)) = false := by
          simp [Finset.mem_insert, hxP]
        rw [@List.filter_cons_of_neg _ (fun c => decide (c.cpuID ∉ P)) x xs (by simp only [h1]; exact Bool.false_ne_true),
          @List.filter_cons_of_neg _ (fun c => decide (c.cpuID ∉ insert s P)) x xs (by simp only [h2]; exact Bool.false_ne_true)]
        exact ih hnd.2 hex2 hsP
      · have h1 : (decide (x.cpuID ∉ P)) = true := by simp [hxP]
        have h2 : (decide (x.cpuID ∉ insert s P)) = true := by
          simp [Finset.mem_insert, hx, hxP]
        rw [@List.filter_cons_of_pos _ (fun c => decide (c.cpuID ∉ P)) x xs h1,
          @List.filter_cons_of_pos _ (fun c => decide (c.cpuID ∉ insert s P)) x xs h2]
        simp only [List.map_cons]
        have := (ih hnd.2 hex2 hsP).cons x.cpuID
        refine this.trans ?_
        exact List.Perm.swap s x.cpuID _



theorem sibling_back (topo : CPUTopology) (hv : topo.Valid)
    (c x : CPUInfo) (hc : c ∈ topo.cpuDetails) (hx : x ∈ topo.cpuDetails)
    (h : c.siblingCpuID = x.cpuID) : x.siblingCpuID = c.cpuID := by
  rcases hv with ⟨hnd, hpos, hsib⟩
  have hxpos : 0 ≤ x.cpuID := hpos x hx
  rcases hsib c hc with hm | ⟨_, d, hd, hdid, hdsib⟩
  · rw [hm] at h; omega
  · have : d = x := List.inj_on_of_nodup_map hnd hd hx (by rw [hdid, ← h])
    rw [← this, hdsib]

theorem buildCoreGroups_flatten_perm (topo : CPUTopology) (resv : CPUSet)
    (hv : topo.Valid) :
    ∀ (l : List CPUInfo) (processed : Finset Int),
      (l.map (fun c => c.cpuID)).Nodup →
      (∀ c ∈ l, c ∈ topo.cpuDetails) →
      (∀ c ∈ l, c.cpuID ∉ resv) →
      (∀ c ∈ l, c.siblingCpuID ∈ processed → c.cpuID ∈ processed) →
      (∀ c ∈ l, c.siblingCpuID ≠ -1 → c.siblingCpuID ∉ resv → c.siblingCpuID ∉ processed →
        c.siblingCpuID ∈ l.map (fun c => c.cpuID)) →
      ((buildCoreGroups topo resv l processed).flatten.map (fun c => c.cpuID)).Perm
        ((l.filter (fun c => c.cpuID ∉ processed)).map (fun c => c.cpuID)) := by
  intro l
  induction l with
  | nil => intro processed _ _ _ _ _; simp [buildCoreGroups]
  | cons cpu rest ih =>
    intro processed hnd hmem hres hclose hsibl
    rw [List.map_cons, List.nodup_cons] at hnd
    have hcputopo : cpu ∈ topo.cpuDetails := hmem cpu (by simp)
    have hcpupos : 0 ≤ cpu.cpuID := hv.2.1 cpu hcputopo
    have hmem2 : ∀ c ∈ rest, c ∈ topo.cpuDetails := fun c hc => hmem c (by simp [hc])
    have hres2 : ∀ c ∈ rest, c.cpuID ∉ resv := fun c hc => hres c (by simp [hc])
    by_cases hp : cpu.cpuID ∈ processed
    · rw [show buildCoreGroups topo resv (cpu :: rest) processed =
          buildCoreGroups topo resv rest processed by
        simp [buildCoreGroups, hp]]
      rw [@List.filter_cons_of_neg _ (fun c => decide (c.cpuID ∉ processed)) cpu rest
        (by simp [hp])]
      refine ih processed hnd.2 hmem2 hres2
        (fun c hc h => hclose c (by simp [hc]) h) ?_
      intro c hc h1 h2 h3
      have := hsibl c (by simp [hc]) h1 h2 h3
      rw [List.map_cons] at this
      rcases List.mem_cons.mp this with heq | hmm
      · exact absurd (heq ▸ hp) h3
      · exact hmm
    · rw [@List.filter_cons_of_pos _ (fun c => decide (c.cpuID ∉ processed)) cpu rest
        (by simp [hp]), List.map_cons]
      by_cases hsib : cpu.siblingCpuID = -1 ∨ cpu.siblingCpuID ∈ resv
      · -- singleton group
        rw [show buildCoreGroups topo resv (cpu :: rest) processed =
            [cpu] :: buildCoreGroups topo resv rest (insert cpu.cpuID processed) by
          simp [buildCoreGroups, hp, hsib]]
        rw [List.flatten_cons, List.map_append]
        have hclose2 : ∀ c ∈ rest, c.siblingCpuID ∈ insert cpu.cpuID processed →
            c.cpuID ∈ insert cpu.cpuID processed := by
          intro c hc hin
          rcases Finset.mem_insert.mp hin with heq | hin
          · have hback := sibling_back topo hv c cpu (hmem2 c hc) hcputopo heq
            rcases hsib with hm | hm
            · have : 0 ≤ c.cpuID := hv.2.1 c (hmem2 c hc)
              rw [hback] at hm; omega
            · rw [hback] at hm
              exact absurd hm (hres2 c hc)
          · exact Finset.mem_insert_of_mem (hclose c (by simp [hc]) hin)
        have hsibl2 : ∀ c ∈ rest, c.siblingCpuID ≠ -1 → c.siblingCpuID ∉ resv →
            c.siblingCpuID ∉ insert cpu.cpuID processed →
            c.siblingCpuID ∈ rest.map (fun c => c.cpuID) := by
          intro c hc h1 h2 h3
          have hnotcpu : c.siblingCpuID ≠ cpu.cpuID := by
            intro he; exact h3 (he ▸ Finset.mem_insert_self _ _)
          have hnp : c.siblingCpuID ∉ processed :=
            fun hin => h3 (Finset.mem_insert_of_mem hin)
          have := hsibl c (by simp [hc]) h1 h2 hnp
          rw [List.map_cons] at this
          rcases List.mem_cons.mp this with heq | hmm
          · exact absurd heq hnotcpu
          · exact hmm
        have hih := ih (insert cpu.cpuID processed) hnd.2 hmem2 hres2 hclose2 hsibl2
        have hcongr : rest.filter (fun c => c.cpuID ∉ insert cpu.cpuID processed) =
            rest.filter (fun c => c.cpuID ∉ processed) := by
          apply List.filter_congr
          intro c hc
          have : c.cpuID ≠ cpu.cpuID := by
            intro he
            exact hnd.1 (he ▸ List.mem_map_of_mem _ hc)
          simp [Finset.mem_insert, this]
        rw [hcongr] at hih
        simpa using hih.cons cpu.cpuID
      · -- pair group
        push_neg at hsib
        have hsnp : cpu.siblingCpuID ∉ processed := by
          intro hin
          exact hp (hclose cpu (by simp) hin)
        have hsmem := hsibl cpu (by simp) hsib.1 hsib.2 hsnp
        rw [List.map_cons] at hsmem
        have hsne : cpu.siblingCpuID ≠ cpu.cpuID := by
          rcases hv.2.2 cpu hcputopo with hm | ⟨hne, _⟩
          · exact absurd hm hsib.1
          · exact hne
        have hsrest : cpu.siblingCpuID ∈ rest.map (fun c => c.cpuID) := by
          rcases List.mem_cons.mp hsmem with heq | hmm
          · exact absurd heq hsne
          · exact hmm
        rcases List.mem_map.mp hsrest with ⟨d, hd, hdid⟩
        have hdtopo : d ∈ topo.cpuDetails := hmem2 d hd
        have hlk : topo.lookup cpu.siblingCpuID = d := by
          rw [← hdid]
          exact lookup_eq_of_mem topo hv.1 d hdtopo
        rw [show buildCoreGroups topo resv (cpu :: rest) processed =
            [cpu, topo.lookup cpu.siblingCpuID] ::
              buildCoreGroups topo resv rest
                (insert cpu.siblingCpuID (insert cpu.cpuID processed)) by
          rw [buildCoreGroups]
          rw [if_neg hp, if_neg (by push_neg; exact hsib)]]
        rw [List.flatten_cons, List.map_append]
        have hdsib : d.siblingCpuID = cpu.cpuID :=
          sibling_back topo hv cpu d hcputopo hdtopo hdid.symm
        have hclose2 : ∀ c ∈ rest,
            c.siblingCpuID ∈ insert cpu.siblingCpuID (insert cpu.cpuID processed) →
            c.cpuID ∈ insert cpu.siblingCpuID (insert cpu.cpuID processed) := by
          intro c hc hin
          have hctopo : c ∈ topo.cpuDetails := hmem2 c hc
          rcases Finset.mem_insert.mp hin with heq | hin
          · -- c's sibling is cpu's sibling: then c = cpu's partner's partner = cpu
            have : c.siblingCpuID = d.cpuID := by rw [heq, hdid]
            have hback := sibling_back topo hv c d hctopo hdtopo this
            rw [hdsib] at hback
            exact Finset.mem_insert_of_mem (hback ▸ Finset.mem_insert_self _ _)
          · rcases Finset.mem_insert.mp hin with heq | hin
            · have hback := sibling_back topo hv c cpu hctopo hcputopo heq
              exact hback ▸ Finset.mem_insert_self _ _
            · exact Finset.mem_insert_of_mem (Finset.mem_insert_of_mem
                (hclose c (by simp [hc]) hin))
        have hsibl2 : ∀ c ∈ rest, c.siblingCpuID ≠ -1 → c.siblingCpuID ∉ resv →
            c.siblingCpuID ∉ insert cpu.siblingCpuID (insert cpu.cpuID processed) →
            c.siblingCpuID ∈ rest.map (fun c => c.cpuID) := by
          intro c hc h1 h2 h3
          have hnotcpu : c.siblingCpuID ≠ cpu.cpuID := by
            intro he
            exact h3 (Finset.mem_insert_of_mem (he ▸ Finset.mem_insert_self _ _))
          have hnp : c.siblingCpuID ∉ processed := by
            intro hin
            exact h3 (Finset.mem_insert_of_mem (Finset.mem_insert_of_mem hin))
          have := hsibl c (by simp [hc]) h1 h2 hnp
          rw [List.map_cons] at this
          rcases List.mem_cons.mp this with heq | hmm
          · exact absurd heq hnotcpu
          · exact hmm
        have hih := ih (insert cpu.siblingCpuID (insert cpu.cpuID processed))
          hnd.2 hmem2 hres2 hclose2 hsibl2
        have hcongr : rest.filter
              (fun c => c.cpuID ∉ insert cpu.siblingCpuID (insert cpu.cpuID processed)) =
            rest.filter (fun c => c.cpuID ∉ insert cpu.siblingCpuID processed) := by
          apply List.filter_congr
          intro c hc
          have : c.cpuID ≠ cpu.cpuID := by
            intro he
            exact hnd.1 (he ▸ List.mem_map_of_mem _ hc)
          simp only [Finset.mem_insert, this, decide_eq_decide]
          tauto
        rw [hcongr] at hih
        have herase := filter_erase_perm processed cpu.siblingCpuID rest hnd.2
          ⟨d, hd, hdid⟩ hsnp
        -- LHS: cpu.id :: sib :: (recursion); RHS: cpu.id :: filter-processed
        have hlhs : (List.map (fun c => c.cpuID) [cpu, topo.lookup cpu.siblingCpuID]) =
            [cpu.cpuID, cpu.siblingCpuID] := by
          rw [hlk]
          simp [hdid]
        rw [hlhs]
        refine List.Perm.trans ?_ (herase.symm.cons cpu.cpuID)
        show (cpu.cpuID :: cpu.siblingCpuID ::
            ((buildCoreGroups topo resv rest _).flatten.map (fun c => c.cpuID))).Perm
          (cpu.cpuID :: cpu.siblingCpuID ::
            ((rest.filter (fun c => c.cpuID ∉ insert cpu.siblingCpuID processed)).map
              (fun c => c.cpuID)))
        exact (hih.cons _).cons _
  


theorem availableCPUsSorted_perm (topo : CPUTopology) (resv : CPUSet) :
    (availableCPUsSorted topo resv).Perm
      (topo.cpuDetails.filter (fun c => c.cpuID ∉ resv)) :=
  List.perm_insertionSort _ _

theorem availableCPUsSorted_map_nodup (topo : CPUTopology) (resv : CPUSet)
    (hv : topo.Valid) :
    ((availableCPUsSorted topo resv).map (fun c => c.cpuID)).Nodup := by
  have hsub : ((topo.cpuDetails.filter (fun c => c.cpuID ∉ resv)).map (fun c => c.cpuID)).Nodup := by
    refine List.Nodup.sublist ?_ hv.1
    exact List.Sublist.map _ (List.filter_sublist _)
  exact (((availableCPUsSorted_perm topo resv).map _).nodup_iff).mpr hsub

theorem coreGroups_flatten_perm (topo : CPUTopology) (resv : CPUSet) (hv : topo.Valid) :
    ((coreGroupsSorted topo resv).flatten.map (fun c => c.cpuID)).Perm
      ((topo.cpuDetails.filter (fun c => c.cpuID ∉ resv)).map (fun c => c.cpuID)) := by
  have hsortperm : (coreGroupsSorted topo resv).Perm
      (buildCoreGroups topo resv (availableCPUsSorted topo resv) ∅) :=
    List.perm_insertionSort _ _
  have h1 := (hsortperm.flatten).map (fun c => c.cpuID)
  refine h1.trans ?_
  have hmain := buildCoreGroups_flatten_perm topo resv hv (availableCPUsSorted topo resv) ∅
    (availableCPUsSorted_map_nodup topo resv hv)
    (fun c hc => (List.mem_filter.mp ((availableCPUsSorted_perm topo resv).mem_iff.mp hc)).1)
    (fun c hc => by
      have := (List.mem_filter.mp ((availableCPUsSorted_perm topo resv).mem_iff.mp hc)).2
      simpa using this)
    (fun c _ h => absurd h (Finset.not_mem_empty _))
    ?_
  · refine hmain.trans ?_
    have : (availableCPUsSorted topo resv).filter (fun c => c.cpuID ∉ (∅ : Finset Int)) =
        availableCPUsSorted topo resv := by
      have : ∀ c ∈ availableCPUsSorted topo resv,
          (decide (c.cpuID ∉ (∅ : Finset Int))) = (fun _ : CPUInfo => true) c := by
        intro c _; simp
      rw [List.filter_congr this, List.filter_true]
    rw [this]
    exact (availableCPUsSorted_perm topo resv).map _
  · intro c hc h1 h2 _
    have hctopo : c ∈ topo.cpuDetails :=
      (List.mem_filter.mp ((availableCPUsSorted_perm topo resv).mem_iff.mp hc)).1
    rcases hv.2.2 c hctopo with hm | ⟨_, d, hd, hdid, _⟩
    · exact absurd hm h1
    · have hdmem : d ∈ availableCPUsSorted topo resv := by
        refine (availableCPUsSorted_perm topo resv).mem_iff.mpr ?_
        refine List.mem_filter.mpr ⟨hd, ?_⟩
        simp [hdid, h2]
      rw [← hdid]
      exact List.mem_map_of_mem _ hdmem



theorem mem_cpusInNUMANode (topo : CPUTopology) (nid x : Int)
    (h : x ∈ topo.cpusInNUMANode nid) :
    ∃ c ∈ topo.cpuDetails, c.cpuID = x ∧ c.numaNodeID = nid := by
  unfold CPUTopology.cpusInNUMANode at h
  rcases List.mem_map.mp (List.mem_toFinset.mp h) with ⟨c, hc, rfl⟩
  have := List.mem_filter.mp hc
  exact ⟨c, this.1, rfl, by simpa using this.2⟩

theorem numaEntries_pick_independent (topo : CPUTopology) (resv : CPUSet)
    (pick1 pick2 : CPUSet → Int) (hv : topo.Valid)
    (hsock : ∀ c ∈ topo.cpuDetails, ∀ d ∈ topo.cpuDetails,
      c.numaNodeID = d.numaNodeID → c.socketID = d.socketID)
    (hp1 : ∀ s : CPUSet, s.Nonempty → pick1 s ∈ s)
    (hp2 : ∀ s : CPUSet, s.Nonempty → pick2 s ∈ s) :
    numaEntries topo resv pick1 = numaEntries topo resv pick2 := by
  rw [numaEntries_eq, numaEntries_eq]
  apply List.map_congr_left
  intro nid hnid
  have hcard : ¬ (topo.cpusInNUMANode nid \ resv).card = 0 := by
    have := List.mem_filter.mp hnid
    simpa using this.2
  have hne : (topo.cpusInNUMANode nid \ resv).Nonempty :=
    Finset.card_ne_zero.mp hcard
  have hsame : (topo.lookup (pick1 (topo.cpusInNUMANode nid \ resv))).socketID =
      (topo.lookup (pick2 (topo.cpusInNUMANode nid \ resv))).socketID := by
    have hm1 : pick1 (topo.cpusInNUMANode nid \ resv) ∈ topo.cpusInNUMANode nid :=
      (Finset.sdiff_subset) (hp1 _ hne)
    have hm2 : pick2 (topo.cpusInNUMANode nid \ resv) ∈ topo.cpusInNUMANode nid :=
      (Finset.sdiff_subset) (hp2 _ hne)
    rcases mem_cpusInNUMANode topo nid _ hm1 with ⟨c1, hc1, hid1, hn1⟩
    rcases mem_cpusInNUMANode topo nid _ hm2 with ⟨c2, hc2, hid2, hn2⟩
    have hl1 : topo.lookup (pick1 (topo.cpusInNUMANode nid \ resv)) = c1 := by
      rw [← hid1]; exact lookup_eq_of_mem topo hv.1 c1 hc1
    have hl2 : topo.lookup (pick2 (topo.cpusInNUMANode nid \ resv)) = c2 := by
      rw [← hid2]; exact lookup_eq_of_mem topo hv.1 c2 hc2
    rw [hl1, hl2]
    exact hsock c1 hc1 c2 hc2 (by rw [hn1, hn2])
  rw [hsame]

theorem pickMinD_mem (s : CPUSet) (h : s.Nonempty) : pickMinD s ∈ s := by
  unfold pickMinD
  have : s.min ≠ ⊤ := by
    rw [Ne, Finset.min_eq_top]
    exact Finset.nonempty_iff_ne_empty.mp h
  rcases WithTop.ne_top_iff_exists.mp this with ⟨m, hm⟩
  rw [← hm]
  simp only [WithTop.untop'_coe]
  exact Finset.mem_of_min hm.symm

theorem pickMaxD_mem (s : CPUSet) (h : s.Nonempty) : pickMaxD s ∈ s := by
  unfold pickMaxD
  have : s.max ≠ ⊥ := by
    rw [Ne, Finset.max_eq_bot]
    exact Finset.nonempty_iff_ne_empty.mp h
  rcases WithBot.ne_bot_iff_exists.mp this with ⟨m, hm⟩
  rw [← hm]
  simp only [WithBot.unbot'_coe]
  exact Finset.mem_of_max hm.symm



theorem numaAllocLoop_err (driverName : String) (topo : CPUTopology)
    (index : List (String × Int)) (shared : CPUSet) :
    ∀ (results : List AllocationResult) (acc : CPUSet),
      (∃ r ∈ results,
        groupedResultFails driverName topo index shared (topo.cpusInNUMANode) r) →
      ∃ e, numaAllocLoop driverName topo index shared results acc = (∅, some e) := by
  intro results
  induction results with
  | nil => intro acc h; simp at h
  | cons r rest ih =>
    intro acc h
    by_cases hr : r.driver = driverName
    · have hne : ¬ r.driver ≠ driverName := by simp [hr]
      cases hfind : lookupAssoc index r.device with
      | none =>
        refine ⟨"no valid NUMA node ID found for device " ++ r.device, ?_⟩
        simp [numaAllocLoop, hne, hfind]
      | some nid =>
        cases htake : TakeByTopologyNUMAPacked topo (shared ∩ topo.cpusInNUMANode nid)
            ((lookupAssoc r.consumedCapacity cpuResourceQualifiedName).getD 0) with
        | mk cur errOpt =>
          cases errOpt with
          | some e =>
            refine ⟨e, ?_⟩
            simp [numaAllocLoop, hne, hfind, htake]
          | none =>
            have htail : ∃ x ∈ rest,
                groupedResultFails driverName topo index shared (topo.cpusInNUMANode) x := by
              rcases h with ⟨x, hx, hfail⟩
              rcases List.mem_cons.mp hx with rfl | hx
              · rcases hfail with ⟨_, hlook | ⟨cid, hcid, e, he⟩⟩
                · rw [hfind] at hlook; exact absurd hlook (by simp)
                · rw [hfind] at hcid
                  have : cid = nid := by injection hcid with hcc; exact hcc.symm
                  subst this
                  rw [htake] at he
                  exact absurd he (by simp)
              · exact ⟨x, hx, hfail⟩
            simp only [numaAllocLoop, if_neg hne, hfind, htake]
            exact ih _ htail
    · have htail : ∃ x ∈ rest,
          groupedResultFails driverName topo index shared (topo.cpusInNUMANode) x := by
        rcases h with ⟨x, hx, hfail⟩
        rcases List.mem_cons.mp hx with rfl | hx
        · exact absurd hfail.1 hr
        · exact ⟨x, hx, hfail⟩
      simp only [numaAllocLoop, if_pos hr]
      exact ih _ htail




/-- C1 (counterexample): on a topology with 129 one-CPU sockets and nothing
reserved, the socket-grouped catalog holds 129 devices, yet `CreateSlices`
returns them as one single slice of 129 > 128 devices — the grouped managers
do not apply the 128-device chunking rule. -/
theorem socketCreateSlices_exceeds_ceiling :
    maxDevicesPerResourceSlice < (socketDevices topo129 ∅).length ∧
    (socketCreateSlices topo129 ∅).map List.length = [129] := by decide

/-- C1 (amended): for every topology and reserved set, the Socket-Grouped and
NUMA-Grouped `CreateSlices` return the whole catalog as at most one slice
containing all devices in order; no chunking to the 128-device ceiling is
applied, regardless of catalog size. -/
theorem grouped_createSlices_single_slice (topo : CPUTopology) (resv : CPUSet)
    (pick : CPUSet → Int) :
    (socketCreateSlices topo resv).flatten = socketDevices topo resv ∧
    (socketCreateSlices topo resv).length ≤ 1 ∧
    (numaCreateSlices topo resv pick).flatten = numaDevices topo resv pick ∧
    (numaCreateSlices topo resv pick).length ≤ 1 := by
  refine ⟨?_, ?_, ?_, ?_⟩ <;>
    · simp only [socketCreateSlices, numaCreateSlices]
      split <;> simp_all

/-- C2: no CPU ID in the set returned by `AllocateCPUs` belongs to the
reserved set — for the individual manager (whose index comes from its own
`CreateSlices`) unconditionally on valid topologies, and for the grouped
managers whenever the live shared pool excludes the reserved CPUs, since a
device's derivable pool is the shared pool intersected with the coordinate's
CPUs and the packing primitive selects within it. -/
theorem allocateCPUs_avoids_reserved :
    (∀ (topo : CPUTopology) (resv : CPUSet) (driverName : String)
        (results : List AllocationResult), topo.Valid →
      ∀ x ∈ (individualAllocateCPUs driverName (individualDeviceIndex topo resv) results).1,
        x ∉ resv) ∧
    (∀ (topo : CPUTopology) (resv : CPUSet) (driverName : String)
        (index : List (String × Int)) (sharedCPUs : CPUSet)
        (results : List AllocationResult),
      (∀ x ∈ sharedCPUs, x ∉ resv) →
      ∀ x ∈ (socketAllocateCPUs driverName topo index sharedCPUs results).1, x ∉ resv) ∧
    (∀ (topo : CPUTopology) (resv : CPUSet) (driverName : String)
        (index : List (String × Int)) (sharedCPUs : CPUSet)
        (results : List AllocationResult),
      (∀ x ∈ sharedCPUs, x ∉ resv) →
      ∀ x ∈ (numaAllocateCPUs driverName topo index sharedCPUs results).1, x ∉ resv) := by
  refine ⟨?_, ?_, ?_⟩
  · intro topo resv driverName results hv x hx
    exact individualAllocLoop_fst_not_reserved driverName _ resv
      (individualDeviceIndex_not_reserved topo resv hv) results [] (by simp) x hx
  · intro topo resv driverName index sharedCPUs results hdisj x hx
    have := socketAllocLoop_fst_subset driverName topo index sharedCPUs results ∅ hx
    rcases Finset.mem_union.mp this with h | h
    · exact absurd h (Finset.not_mem_empty x)
    · exact hdisj x h
  · intro topo resv driverName index sharedCPUs results hdisj x hx
    have := numaAllocLoop_fst_subset driverName topo index sharedCPUs results ∅ hx
    rcases Finset.mem_union.mp this with h | h
    · exact absurd h (Finset.not_mem_empty x)
    · exact hdisj x h

theorem allocateCPUs_avoids_reserved_witness :
    ((1 : Int) ∈ (individualAllocateCPUs "dra.cpu" (individualDeviceIndex topoSib {2})
        [⟨"dra.cpu", indivDeviceName 1, []⟩]).1 ∧ (1 : Int) ∉ ({2} : CPUSet)) ∧
    ((0 : Int) ∈ (socketAllocateCPUs "dra.cpu" topoSib (socketDeviceIndex topoSib {2})
        {0, 1, 3} [⟨"dra.cpu", socketDeviceName 0, [(cpuResourceQualifiedName, 2)]⟩]).1 ∧
      (0 : Int) ∉ ({2} : CPUSet)) :=
  ⟨⟨by decide, allocateCPUs_avoids_reserved.1 topoSib {2} "dra.cpu"
      [⟨"dra.cpu", indivDeviceName 1, []⟩] (by decide) 1 (by decide)⟩,
   ⟨by decide, allocateCPUs_avoids_reserved.2.1 topoSib {2} "dra.cpu"
      (socketDeviceIndex topoSib {2}) {0, 1, 3}
      [⟨"dra.cpu", socketDeviceName 0, [(cpuResourceQualifiedName, 2)]⟩]
      (by decide) 0 (by decide)⟩⟩




/-- C3: `AllocateCPUs` is atomic on failure: if any allocation result for
this driver names a device absent from the manager's index, or (grouped
managers) the packing primitive fails for any such result, the call returns
an error together with the empty CPU set — no partial CPU set is returned. -/
theorem allocateCPUs_atomic_on_failure :
    (∀ (driverName : String) (index : List (String × Int))
        (results : List AllocationResult),
      (∃ r ∈ results, r.driver = driverName ∧ lookupAssoc index r.device = none) →
      ∃ e, individualAllocateCPUs driverName index results = (∅, some e)) ∧
    (∀ (driverName : String) (topo : CPUTopology) (index : List (String × Int))
        (sharedCPUs : CPUSet) (results : List AllocationResult),
      (∃ r ∈ results,
        groupedResultFails driverName topo index sharedCPUs (topo.cpusInSocket) r) →
      ∃ e, socketAllocateCPUs driverName topo index sharedCPUs results = (∅, some e)) ∧
    (∀ (driverName : String) (topo : CPUTopology) (index : List (String × Int))
        (sharedCPUs : CPUSet) (results : List AllocationResult),
      (∃ r ∈ results,
        groupedResultFails driverName topo index sharedCPUs (topo.cpusInNUMANode) r) →
      ∃ e, numaAllocateCPUs driverName topo index sharedCPUs results = (∅, some e)) :=
  ⟨fun driverName index results h => individualAllocLoop_err driverName index results [] h,
   fun driverName topo index shared results h =>
     socketAllocLoop_err driverName topo index shared results ∅ h,
   fun driverName topo index shared results h =>
     numaAllocLoop_err driverName topo index shared results ∅ h⟩

theorem allocateCPUs_atomic_on_failure_witness :
    (individualAllocateCPUs "dra.cpu" (individualDeviceIndex topoSib ∅)
      [⟨"dra.cpu", indivDeviceName 0, []⟩, ⟨"dra.cpu", "ghost", []⟩]).1 = ∅ ∧
    (socketAllocateCPUs "dra.cpu" topoSib (socketDeviceIndex topoSib ∅) {0, 1}
      [⟨"dra.cpu", socketDeviceName 0, [(cpuResourceQualifiedName, 4)]⟩]).1 = ∅ := by
  constructor
  · rcases allocateCPUs_atomic_on_failure.1 "dra.cpu" (individualDeviceIndex topoSib ∅)
        [⟨"dra.cpu", indivDeviceName 0, []⟩, ⟨"dra.cpu", "ghost", []⟩]
        ⟨⟨"dra.cpu", "ghost", []⟩, by decide, by decide, by decide⟩ with ⟨e, he⟩
    rw [he]
  · rcases allocateCPUs_atomic_on_failure.2.1 "dra.cpu" topoSib
        (socketDeviceIndex topoSib ∅) {0, 1}
        [⟨"dra.cpu", socketDeviceName 0, [(cpuResourceQualifiedName, 4)]⟩]
        ⟨⟨"dra.cpu", socketDeviceName 0, [(cpuResourceQualifiedName, 4)]⟩, by decide,
          by decide, Or.inr ⟨0, by decide, "not enough cpus available to satisfy request",
            by decide⟩⟩ with ⟨e, he⟩
    rw [he]



theorem chunkAux_flatten {α : Type} (n : Nat) (hn : 0 < n) :
    ∀ (fuel : Nat) (l : List α), l.length ≤ fuel → (chunkAux n fuel l).flatten = l := by
  intro fuel
  induction fuel with
  | zero =>
    intro l hl
    have : l = [] := List.eq_nil_of_length_eq_zero (Nat.le_zero.mp hl)
    subst this; rfl
  | succ fuel ih =>
    intro l hl
    cases l with
    | nil => rfl
    | cons x xs =>
      have hdrop : ((x :: xs).drop n).length ≤ fuel := by
        rw [List.length_drop]
        have hx : (x :: xs).length = xs.length + 1 := rfl
        omega
      calc (chunkAux n (fuel + 1) (x :: xs)).flatten
          = (x :: xs).take n ++ (chunkAux n fuel ((x :: xs).drop n)).flatten := by
            simp [chunkAux]
        _ = (x :: xs).take n ++ (x :: xs).drop n := by rw [ih _ hdrop]
        _ = x :: xs := List.take_append_drop n (x :: xs)

theorem chunkAux_length_le {α : Type} (n : Nat) :
    ∀ (fuel : Nat) (l : List α), ∀ c ∈ chunkAux n fuel l, c.length ≤ n := by
  intro fuel
  induction fuel with
  | zero => intro l c hc; simp [chunkAux] at hc
  | succ fuel ih =>
    intro l c hc
    cases l with
    | nil => simp [chunkAux] at hc
    | cons x xs =>
      simp only [chunkAux, List.mem_cons] at hc
      rcases hc with h | h
      · subst h
        simp [List.length_take_le]
      · exact ih _ _ h

theorem chunkList_flatten {α : Type} (n : Nat) (hn : 0 < n) (l : List α) :
    (chunkList n l).flatten = l :=
  chunkAux_flatten n hn l.length l le_rfl

theorem chunkList_length_le {α : Type} (n : Nat) (l : List α) :
    ∀ c ∈ chunkList n l, c.length ≤ n :=
  chunkAux_length_le n l.length l





/-- C4: Individual-Core `CreateSlices` emits exactly one device per
non-reserved CPU (the flattened groups' CPU IDs are a permutation of the
non-reserved CPU IDs) with sequential zero-based names `cpudev000`, …; on the
topology with CPUs {0,1,2,3} and sibling pairs 0↔2 and 1↔3 it yields exactly
the 4 devices `cpudev000`..`cpudev003` with sibling pairs adjacent, and with
CPU 2 reserved it yields exactly 3 devices with CPU 0 a singleton group. -/
theorem individual_createSlices_grouping :
    (∀ (topo : CPUTopology) (resv : CPUSet), topo.Valid →
      ((individualDevices topo resv).map Device.name =
        (List.range ((topo.cpuDetails.filter (fun c => c.cpuID ∉ resv)).length)).map
          indivDeviceName) ∧
      (((coreGroupsSorted topo resv).flatten.map (fun c => c.cpuID)).Perm
        ((topo.cpuDetails.filter (fun c => c.cpuID ∉ resv)).map (fun c => c.cpuID)))) ∧
    (individualEntries topoSib ∅).map Prod.snd =
      [("cpudev000", 0), ("cpudev001", 2), ("cpudev002", 1), ("cpudev003", 3)] ∧
    (individualEntries topoSib {2}).map Prod.snd =
      [("cpudev000", 0), ("cpudev001", 1), ("cpudev002", 3)] ∧
    (coreGroupsSorted topoSib {2}).map (fun g => g.map (fun c => c.cpuID)) = [[0], [1, 3]] := by
  refine ⟨?_, by decide, by decide, by decide⟩
  intro topo resv hv
  have hperm := coreGroups_flatten_perm topo resv hv
  refine ⟨?_, hperm⟩
  have hlen : (coreGroupsSorted topo resv).flatten.length =
      (topo.cpuDetails.filter (fun c => c.cpuID ∉ resv)).length := by
    have hl := hperm.length_eq
    rw [List.length_map, List.length_map] at hl
    exact hl
  rw [individualDevices_names, hlen]

theorem individual_createSlices_grouping_witness :
    (individualDevices topoSib ∅).map Device.name =
      (List.range ((topoSib.cpuDetails.filter (fun c => c.cpuID ∉ (∅ : CPUSet))).length)).map
        indivDeviceName :=
  (individual_createSlices_grouping.1 topoSib ∅ (by decide)).1

/-- C5: grouped `CreateSlices` (socket and NUMA variants) emits exactly one
device per coordinate that has at least one non-reserved CPU, in coordinate
order, omitting coordinates whose CPUs are entirely reserved, publishing as
the `dra.cpu/cpu` capacity exactly the coordinate's CPU count minus its
reserved CPUs, with the multiple-allocations flag set. -/
theorem grouped_createSlices_per_coordinate (topo : CPUTopology) (resv : CPUSet)
    (pick : CPUSet → Int) :
    socketDevices topo resv =
      (topo.sockets.filter (fun sid => ¬ (topo.cpusInSocket sid \ resv).card = 0)).map
        (fun sid =>
          { name := socketDeviceName sid,
            attributes := MakeGroupedAttributes topo sid (topo.cpusInSocket sid \ resv),
            capacity := [(cpuResourceQualifiedName, ((topo.cpusInSocket sid \ resv).card : Int))],
            allowMultipleAllocations := true }) ∧
    numaDevices topo resv pick =
      (topo.numaNodes.filter (fun nid => ¬ (topo.cpusInNUMANode nid \ resv).card = 0)).map
        (fun nid =>
          { name := numaDeviceName nid,
            attributes :=
              MakeGroupedAttributes topo
                ((topo.lookup (pick (topo.cpusInNUMANode nid \ resv))).socketID)
                (topo.cpusInNUMANode nid \ resv) ++
              [("dra.cpu/numaNodeID", AttrValue.intValue nid),
               ("dra.net/numaNode", AttrValue.intValue nid)],
            capacity := [(cpuResourceQualifiedName, ((topo.cpusInNUMANode nid \ resv).card : Int))],
            allowMultipleAllocations := true }) := by
  constructor
  · rw [socketDevices, socketEntries_eq, List.map_map]
    rfl
  · rw [numaDevices, numaEntries_eq, List.map_map]
    rfl

/-- C6: Individual-Core `CreateSlices` splits the ordered device sequence
into consecutive chunks of at most 128 devices preserving global order (the
returned slices flatten back to the device list), returns no slices when the
catalog is empty, and with exactly 300 eligible CPUs returns 3 ordered chunks
of sizes 128, 128 and 44 whose concatenated names are `cpudev000`..`cpudev299`
in order. -/
theorem individual_createSlices_chunking :
    (∀ (topo : CPUTopology) (resv : CPUSet),
      (individualCreateSlices topo resv).flatten = individualDevices topo resv ∧
      (∀ s ∈ individualCreateSlices topo resv, s.length ≤ maxDevicesPerResourceSlice) ∧
      (individualDevices topo resv = [] → individualCreateSlices topo resv = [])) ∧
    (individualCreateSlices topo300 ∅).map List.length = [128, 128, 44] ∧
    (individualCreateSlices topo300 ∅).flatten.map Device.name =
      (List.range 300).map indivDeviceName := by
  refine ⟨?_, by decide, by decide⟩
  intro topo resv
  have heq : individualCreateSlices topo resv =
      if individualDevices topo resv = [] then []
      else chunkList maxDevicesPerResourceSlice (individualDevices topo resv) := rfl
  refine ⟨?_, ?_, ?_⟩
  · rw [heq]
    split
    · simp_all
    · exact chunkList_flatten maxDevicesPerResourceSlice (by decide) _
  · intro s hs
    rw [heq] at hs
    split at hs
    · simp at hs
    · exact chunkList_length_le maxDevicesPerResourceSlice _ s hs
  · intro h
    rw [heq]
    simp [h]

theorem individual_createSlices_chunking_witness :
    individualCreateSlices { smtEnabled := false, cpuDetails := [] } ∅ = [] :=
  (individual_createSlices_chunking.1 { smtEnabled := false, cpuDetails := [] } ∅).2.2
    (by decide)




/-- C7: for every manager strategy, `AllocateCPUs` skips allocation results
whose driver field differs from the manager's driver name without error (the
call equals the call on the results filtered to this driver), and when zero
results belong to this driver it returns the empty CPU set with no error. -/
theorem allocateCPUs_driver_scoped :
    (∀ (driverName : String) (index : List (String × Int))
        (results : List AllocationResult),
      individualAllocateCPUs driverName index results =
        individualAllocateCPUs driverName index
          (results.filter (fun r => r.driver = driverName))) ∧
    (∀ (driverName : String) (index : List (String × Int))
        (results : List AllocationResult),
      (∀ r ∈ results, r.driver ≠ driverName) →
      individualAllocateCPUs driverName index results = (∅, none)) ∧
    (∀ (driverName : String) (topo : CPUTopology) (index : List (String × Int))
        (sharedCPUs : CPUSet) (results : List AllocationResult),
      socketAllocateCPUs driverName topo index sharedCPUs results =
        socketAllocateCPUs driverName topo index sharedCPUs
          (results.filter (fun r => r.driver = driverName))) ∧
    (∀ (driverName : String) (topo : CPUTopology) (index : List (String × Int))
        (sharedCPUs : CPUSet) (results : List AllocationResult),
      (∀ r ∈ results, r.driver ≠ driverName) →
      socketAllocateCPUs driverName topo index sharedCPUs results = (∅, none)) ∧
    (∀ (driverName : String) (topo : CPUTopology) (index : List (String × Int))
        (sharedCPUs : CPUSet) (results : List AllocationResult),
      numaAllocateCPUs driverName topo index sharedCPUs results =
        numaAllocateCPUs driverName topo index sharedCPUs
          (results.filter (fun r => r.driver = driverName))) ∧
    (∀ (driverName : String) (topo : CPUTopology) (index : List (String × Int))
        (sharedCPUs : CPUSet) (results : List AllocationResult),
      (∀ r ∈ results, r.driver ≠ driverName) →
      numaAllocateCPUs driverName topo index sharedCPUs results = (∅, none)) := by
  have hempty : ∀ (results : List AllocationResult) (driverName : String),
      (∀ r ∈ results, r.driver ≠ driverName) →
      results.filter (fun r => r.driver = driverName) = [] := by
    intro results driverName h
    rw [List.filter_eq_nil_iff]
    intro r hr
    simp [h r hr]
  refine ⟨?_, ?_, ?_, ?_, ?_, ?_⟩
  · intro driverName index results
    exact individualAllocLoop_filter driverName index results []
  · intro driverName index results h
    rw [individualAllocateCPUs, individualAllocLoop_filter driverName index results [],
      hempty results driverName h]
    rfl
  · intro driverName topo index shared results
    exact socketAllocLoop_filter driverName topo index shared results ∅
  · intro driverName topo index shared results h
    rw [socketAllocateCPUs, socketAllocLoop_filter driverName topo index shared results ∅,
      hempty results driverName h]
    rfl
  · intro driverName topo index shared results
    exact numaAllocLoop_filter driverName topo index shared results ∅
  · intro driverName topo index shared results h
    rw [numaAllocateCPUs, numaAllocLoop_filter driverName topo index shared results ∅,
      hempty results driverName h]
    rfl

theorem allocateCPUs_driver_scoped_witness :
    individualAllocateCPUs "dra.cpu" (individualDeviceIndex topoSib ∅)
      [⟨"other.driver", "cpudev000", []⟩] = (∅, none) :=
  allocateCPUs_driver_scoped.2.1 "dra.cpu" (individualDeviceIndex topoSib ∅)
    [⟨"other.driver", "cpudev000", []⟩] (by decide)

/-- C8: for every topology and reserved set, the device-name sets produced by
the three managers' `CreateSlices` are pairwise disjoint: individual names are
`cpudev` followed by digits, while socket-grouped and NUMA-grouped names carry
the distinct prefixes `cpudevsocket` and `cpudevnuma`. -/
theorem deviceNames_pairwise_disjoint (topo : CPUTopology) (resv : CPUSet)
    (pick : CPUSet → Int) :
    (∀ d1 ∈ individualDevices topo resv, ∀ d2 ∈ socketDevices topo resv,
      d1.name ≠ d2.name) ∧
    (∀ d1 ∈ individualDevices topo resv, ∀ d2 ∈ numaDevices topo resv pick,
      d1.name ≠ d2.name) ∧
    (∀ d1 ∈ socketDevices topo resv, ∀ d2 ∈ numaDevices topo resv pick,
      d1.name ≠ d2.name) := by
  refine ⟨?_, ?_, ?_⟩
  · intro d1 h1 d2 h2
    rcases individualDevices_name_shape topo resv d1 h1 with ⟨i, hi⟩
    rcases socketDevices_name_shape topo resv d2 h2 with ⟨sid, hsid⟩
    rw [hi, hsid]
    exact indivDeviceName_ne_socketDeviceName i sid
  · intro d1 h1 d2 h2
    rcases individualDevices_name_shape topo resv d1 h1 with ⟨i, hi⟩
    rcases numaDevices_name_shape topo resv pick d2 h2 with ⟨nid, hnid⟩
    rw [hi, hnid]
    exact indivDeviceName_ne_numaDeviceName i nid
  · intro d1 h1 d2 h2
    rcases socketDevices_name_shape topo resv d1 h1 with ⟨sid, hsid⟩
    rcases numaDevices_name_shape topo resv pick d2 h2 with ⟨nid, hnid⟩
    rw [hsid, hnid]
    exact socketDeviceName_ne_numaDeviceName sid nid

theorem deviceNames_pairwise_disjoint_witness :
    (individualDevices topoSib ∅).headI.name ≠ (socketDevices topoSib ∅).headI.name :=
  (deviceNames_pairwise_disjoint topoSib ∅ pickZero).1
    (individualDevices topoSib ∅).headI (by decide)
    (socketDevices topoSib ∅).headI (by decide)

/-- C9: claim preparation returns all failures as synchronous result values:
a claim with no allocation status yields an error-valued result (never an
unwound exception — every outcome of `prepareResourceClaim` and of each
manager's `AllocateCPUs` is a value that is either an error or a success). -/
theorem prepareResourceClaim_total :
    (∀ (allocateCPUs : List AllocationResult → CPUSet × Option String)
        (claim : ResourceClaim),
      claim.allocation = none →
      prepareResourceClaim allocateCPUs claim =
        { err := some "claim has no allocation", cpus := ∅ }) ∧
    (∀ (allocateCPUs : List AllocationResult → CPUSet × Option String)
        (claim : ResourceClaim),
      (∃ e, (prepareResourceClaim allocateCPUs claim).err = some e) ∨
      ((prepareResourceClaim allocateCPUs claim).err = none ∧
        (∃ results, claim.allocation = some results ∧
          prepareResourceClaim allocateCPUs claim =
            { err := none, cpus := (allocateCPUs results).1 }))) ∧
    (∀ (driverName : String) (index : List (String × Int))
        (results : List AllocationResult),
      (individualAllocateCPUs driverName index results).2 = none ∨
      ∃ e, (individualAllocateCPUs driverName index results).2 = some e) ∧
    (∀ (driverName : String) (topo : CPUTopology) (index : List (String × Int))
        (sharedCPUs : CPUSet) (results : List AllocationResult),
      ((socketAllocateCPUs driverName topo index sharedCPUs results).2 = none ∨
        ∃ e, (socketAllocateCPUs driverName topo index sharedCPUs results).2 = some e) ∧
      ((numaAllocateCPUs driverName topo index sharedCPUs results).2 = none ∨
        ∃ e, (numaAllocateCPUs driverName topo index sharedCPUs results).2 = some e)) := by
  refine ⟨?_, ?_, ?_, ?_⟩
  · intro allocateCPUs claim h
    unfold prepareResourceClaim
    rw [h]
  · intro allocateCPUs claim
    rcases claim with ⟨alloc⟩
    cases alloc with
    | none => exact Or.inl ⟨"claim has no allocation", rfl⟩
    | some results =>
      rcases hrun : allocateCPUs results with ⟨s, errOpt⟩
      cases errOpt with
      | some e =>
        refine Or.inl ⟨e, ?_⟩
        show (prepareResourceClaim allocateCPUs { allocation := some results }).err = some e
        unfold prepareResourceClaim
        dsimp only
        rw [hrun]
      | none =>
        refine Or.inr ⟨?_, results, rfl, ?_⟩
        · show (prepareResourceClaim allocateCPUs { allocation := some results }).err = none
          unfold prepareResourceClaim
          dsimp only
          rw [hrun]
        · show prepareResourceClaim allocateCPUs { allocation := some results } =
            { err := none, cpus := (allocateCPUs results).1 }
          unfold prepareResourceClaim
          dsimp only
          rw [hrun]
  · intro driverName index results
    cases h : (individualAllocateCPUs driverName index results).2 with
    | none => exact Or.inl rfl
    | some e => exact Or.inr ⟨e, rfl⟩
  · intro driverName topo index shared results
    constructor
    · cases h : (socketAllocateCPUs driverName topo index shared results).2 with
      | none => exact Or.inl rfl
      | some e => exact Or.inr ⟨e, rfl⟩
    · cases h : (numaAllocateCPUs driverName topo index shared results).2 with
      | none => exact Or.inl rfl
      | some e => exact Or.inr ⟨e, rfl⟩

theorem prepareResourceClaim_total_witness :
    prepareResourceClaim (fun _ => (∅, none)) { allocation := none } =
      { err := some "claim has no allocation", cpus := ∅ } :=
  prepareResourceClaim_total.1 (fun _ => (∅, none)) { allocation := none } rfl




/-- C10 (counterexample): on a topology whose NUMA node 0 spans sockets 0 and
1, two legitimate resolutions of the unspecified `UnsortedList()[0]` choice
produce different NUMA-grouped catalogs (different `dra.cpu/socketID`
attributes), so `CreateSlices` is not deterministic for every topology. -/
theorem numaCreateSlices_pick_dependent :
    pickZero (topoSpan.cpusInNUMANode 0 \ (∅ : CPUSet)) ∈
      topoSpan.cpusInNUMANode 0 \ (∅ : CPUSet) ∧
    pickOne (topoSpan.cpusInNUMANode 0 \ (∅ : CPUSet)) ∈
      topoSpan.cpusInNUMANode 0 \ (∅ : CPUSet) ∧
    numaCreateSlices topoSpan ∅ pickZero ≠ numaCreateSlices topoSpan ∅ pickOne := by
  decide

/-- C10 (amended): for every valid topology in which all CPUs of a NUMA node
share one socket (the invariant the code's comment asserts), the NUMA-grouped
catalog and its name→node index are independent of the arbitrary choice of
member used to derive the socket-ID attribute; the other two managers take no
such choice. -/
theorem numaCreateSlices_deterministic (topo : CPUTopology) (resv : CPUSet)
    (pick1 pick2 : CPUSet → Int) (hv : topo.Valid)
    (hsock : ∀ c ∈ topo.cpuDetails, ∀ d ∈ topo.cpuDetails,
      c.numaNodeID = d.numaNodeID → c.socketID = d.socketID)
    (hp1 : ∀ s : CPUSet, s.Nonempty → pick1 s ∈ s)
    (hp2 : ∀ s : CPUSet, s.Nonempty → pick2 s ∈ s) :
    numaCreateSlices topo resv pick1 = numaCreateSlices topo resv pick2 ∧
    numaDeviceIndex topo resv pick1 = numaDeviceIndex topo resv pick2 := by
  have h := numaEntries_pick_independent topo resv pick1 pick2 hv hsock hp1 hp2
  constructor
  · show (if numaDevices topo resv pick1 = [] then [] else [numaDevices topo resv pick1]) =
      (if numaDevices topo resv pick2 = [] then [] else [numaDevices topo resv pick2])
    rw [numaDevices, numaDevices, h]
  · rw [numaDeviceIndex, numaDeviceIndex, h]

theorem numaCreateSlices_deterministic_witness :
    numaCreateSlices topoSib ∅ pickMinD = numaCreateSlices topoSib ∅ pickMaxD :=
  (numaCreateSlices_deterministic topoSib ∅ pickMinD pickMaxD (by decide) (by decide)
    pickMinD_mem pickMaxD_mem).1

end DraCpu
